import Mathlib

/-!
Verification development for the internal wallet transfer / ledger engine
(`createTransfer` handler, `performTransaction`, the per-chain ECO ledger
functions and `processInternalTransfer`).

Numbers: JavaScript numeric values are modelled as `JNum := Option ℚ`, where
`none` models `NaN` (the result of `parseFloat` on non-numeric input) and
`some q` models an ordinary finite value with exact rational arithmetic.
Arithmetic propagates `NaN`; every comparison involving `NaN` is `false`,
matching IEEE/JS comparison semantics, which is what the control flow of the
source depends on.
-/

/-- A JS number: `none` is `NaN`, `some q` a finite value. -/
abbrev JNum := Option ℚ

def fadd : JNum → JNum → JNum
  | some a, some b => some (a + b)
  | _, _ => none

def fsub : JNum → JNum → JNum
  | some a, some b => some (a - b)
  | _, _ => none

def fmul : JNum → JNum → JNum
  | some a, some b => some (a * b)
  | _, _ => none

/-- Division by a (nonzero) literal constant, as in `x / 100`. -/
def fdivC : JNum → ℚ → JNum
  | some a, c => some (a / c)
  | none, _ => none

def fneg : JNum → JNum
  | some a => some (-a)
  | none => none

/-- `Math.min`: `NaN` on either side yields `NaN`. -/
def fmin : JNum → JNum → JNum
  | some a, some b => some (min a b)
  | _, _ => none

/-- JS `<`: any comparison with `NaN` is false. -/
def flt : JNum → JNum → Bool
  | some a, some b => decide (a < b)
  | _, _ => false

/-- JS `<=`: any comparison with `NaN` is false. -/
def fle : JNum → JNum → Bool
  | some a, some b => decide (a ≤ b)
  | _, _ => false

/-- JS `>`: any comparison with `NaN` is false. -/
def fgt (a b : JNum) : Bool := flt b a

/-- Round a rational to `p` decimal places (to nearest). -/
def qroundTo (p : Nat) (q : ℚ) : ℚ := (round (q * 10 ^ p) : ℤ) / 10 ^ p

/-- Rounding a JS number to `p` decimal places; `NaN` stays `NaN`. -/
def froundTo (p : Nat) : JNum → JNum
  | some a => some (qroundTo p a)
  | none => none

/-- The rational value of a finite JS number (0 for `NaN`; only used under
`isSome` side conditions). -/
def numQ (n : JNum) : ℚ := n.getD 0

/-! ## Data model -/

/-- Wallet types, as in the source's `"FIAT" | "SPOT" | "ECO" | "FUTURES"`. -/
inductive WalletType where
  | FIAT
  | SPOT
  | ECO
  | FUTURES
deriving DecidableEq

def wtypeStr : WalletType → String
  | .FIAT => "FIAT"
  | .SPOT => "SPOT"
  | .ECO => "ECO"
  | .FUTURES => "FUTURES"

/-- One chain entry of an ECO wallet's address map:
`{ address, network, balance }`. -/
structure ChainInfo where
  address : Option String
  network : Option String
  balance : JNum
deriving DecidableEq

/-- The parsed address map of an ECO wallet: an insertion-ordered association
list from chain name to `ChainInfo` (JS object key order). -/
abbrev AddrMap := List (String × ChainInfo)

/-- A wallet row. The `address` field holds the parsed chain map; the JSON
(de)serialization done by `parseAddresses` / `JSON.stringify` at the storage
boundary is the identity on this representation. -/
structure Wallet where
  id : Nat
  userId : Nat
  currency : String
  type : WalletType
  balance : JNum
  address : AddrMap
  status : Bool
deriving DecidableEq

/-- A thrown `createError({ statusCode, message })`. -/
structure Err where
  statusCode : Nat
  message : String
deriving DecidableEq

/-- A `transaction` row created by `createTransferTransaction`. -/
structure TransferRecord where
  id : Nat
  userId : Nat
  walletId : Nat
  type : String
  amount : JNum
  fee : JNum
  fromCurrency : String
  toCurrency : String
  fromWalletId : Nat
  toWalletId : Nat
  description : String
  status : String
deriving DecidableEq

/-- One private-ledger audit row (wallet id, index, currency, chain, signed
delta), as appended by `updatePrivateLedger`. -/
structure LedgerEntry where
  walletId : Nat
  index : Nat
  currency : String
  chain : String
  delta : JNum
deriving DecidableEq

/-- An admin profit row, as created by `recordAdminProfit`. -/
structure ProfitRecord where
  userId : Nat
  transferFeeAmount : JNum
  fromCurrency : String
  fromType : WalletType
  toType : WalletType
  transactionId : Nat
deriving DecidableEq

/-- The persistent store: wallet rows, the private ledger, transfer
transaction rows, admin profit rows, existing user ids, and id counters. -/
structure DB where
  users : List Nat
  wallets : List Wallet
  ledger : List LedgerEntry
  transfers : List TransferRecord
  profits : List ProfitRecord
  nextWalletId : Nat
  nextTxId : Nat
deriving DecidableEq

/-- `models.wallet.findOne({ where: { userId, currency, type } })`. -/
def findWallet (db : DB) (userId : Nat) (currency : String) (ty : WalletType) : Option Wallet :=
  db.wallets.find? (fun w => decide (w.userId = userId ∧ w.currency = currency ∧ w.type = ty))

/-- Look a wallet row up by primary key. -/
def findWalletById (db : DB) (id : Nat) : Option Wallet :=
  db.wallets.find? (fun w => decide (w.id = id))

/-- Persist an updated wallet object (`wallet.update(...)`): replace the row
with the same id. -/
def saveWallet (db : DB) (w : Wallet) : DB :=
  { db with wallets := db.wallets.map (fun x => if x.id = w.id then w else x) }

/-- `models.wallet.create({ userId, currency, type, status: true })`. -/
def createWallet (db : DB) (userId : Nat) (currency : String) (ty : WalletType) : Wallet × DB :=
  let w : Wallet :=
    { id := db.nextWalletId, userId := userId, currency := currency, type := ty,
      balance := some 0, address := [], status := true }
  (w, { db with wallets := db.wallets ++ [w], nextWalletId := db.nextWalletId + 1 })

/-! ## Collaborator helpers imported from `./utils` (not under the sources);
modelled from the spec. -/

/-- Modelled from the spec: `calculateTransferFee` from the transfer utils is
not among the sources. §4.3: `fee = amount × (configuredPercentage / 100)`,
exactly the inline formula `(parsedAmount * walletTransferFeePercentage) / 100`
of `processInternalTransfer`. -/
def calculateTransferFee (amount : JNum) (pct : ℚ) : JNum :=
  fdivC (fmul amount (some pct)) 100

/-- Modelled from the spec: `calculateNewBalance` from the transfer utils is
not among the sources. §4.5: apply the signed delta to the balance and round
to the currency's decimal precision. -/
def calculateNewBalance (balance delta : JNum) (precision : Nat) : JNum :=
  froundTo precision (fadd balance delta)

/-- Modelled from the spec: `updatePrivateLedger` from the transfer utils is
not among the sources. §4.4/§5: append one audit row (wallet id, index,
currency, chain, signed delta) within the same atomic scope. -/
def updatePrivateLedger (l : List LedgerEntry) (walletId index : Nat)
    (currency chain : String) (delta : JNum) : List LedgerEntry :=
  l ++ [{ walletId := walletId, index := index, currency := currency,
          chain := chain, delta := delta }]

/-- Modelled from the spec: `updateWalletBalances` from the transfer utils is
not among the sources. §4.5: the source wallet decreases by the debited
amount, the destination increases by the credited amount, both rounded to the
currency precision and persisted in the same scope. -/
def updateWalletBalances (fromW toW : Wallet) (debit credit : JNum)
    (precision : Nat) (db : DB) : Wallet × Wallet × DB :=
  let fw := { fromW with balance := froundTo precision (fsub fromW.balance debit) }
  let tw := { toW with balance := froundTo precision (fadd toW.balance credit) }
  (fw, tw, saveWallet (saveWallet db fw) tw)

/-- Modelled from the spec: `createTransferTransaction` from the transfer
utils is not among the sources. §4.7/§3: append one transfer-transaction row
with a fresh id, carrying the given owner, wallet, leg type, amount, fee,
currencies, linked wallet ids, description and status. -/
def createTransferTransaction (db : DB) (userId walletId : Nat) (legType : String)
    (amount fee : JNum) (fromCurrency toCurrency : String)
    (fromWalletId toWalletId : Nat) (description status : String) :
    TransferRecord × DB :=
  let r : TransferRecord :=
    { id := db.nextTxId, userId := userId, walletId := walletId, type := legType,
      amount := amount, fee := fee, fromCurrency := fromCurrency,
      toCurrency := toCurrency, fromWalletId := fromWalletId,
      toWalletId := toWalletId, description := description, status := status }
  (r, { db with transfers := db.transfers ++ [r], nextTxId := db.nextTxId + 1 })

/-- Modelled from the spec: `recordAdminProfit` from the transfer utils is not
among the sources. §4.8: append one admin profit row. -/
def recordAdminProfit (db : DB) (p : ProfitRecord) : DB :=
  { db with profits := db.profits ++ [p] }

/-- Insert one chain entry into a list that is sorted by balance in
decreasing order. -/
def insertByBalance (x : String × ChainInfo) : AddrMap → AddrMap
  | [] => [x]
  | y :: ys => if fle y.2.balance x.2.balance then x :: y :: ys else y :: insertByBalance x ys

/-- Modelled from the spec: `getSortedChainBalances` from the transfer utils
is not among the sources. §4.4: the client ECO path visits chains in a
sorted-balance order; modelled as the entries sorted by decreasing balance. -/
def getSortedChainBalances (m : AddrMap) : AddrMap :=
  m.foldr insertByBalance []

/-- Modelled from the spec: `getWalletByUserIdAndCurrency` from
`@b/utils/eco/wallet` is not among the sources. §4.1: the ECO-specific
resolution returns the user's ECO wallet for the currency, creating a
zero-balance active one on demand. -/
def getWalletByUserIdAndCurrency (userId : Nat) (currency : String) (db : DB) :
    Wallet × DB :=
  match findWallet db userId currency WalletType.ECO with
  | some w => (w, db)
  | none => createWallet db userId currency WalletType.ECO

/-! ## `parseAddresses` -/

/-- The JS value stored in a wallet's `address` column, as seen by
`parseAddresses`: `nullv` covers `null`/`undefined` (and the other falsy
primitives), `strv` a string, `objv` an object, `otherv` any truthy
non-string non-object value. -/
inductive AddrInput where
  | nullv
  | strv (s : String)
  | objv (m : AddrMap)
  | otherv
deriving DecidableEq

/-- `parseAddresses`: `jsonParse` stands for the external `JSON.parse`,
returning `none` when the string is malformed (the `catch` branch). The
falsy check `if (!address)` also catches the empty string. -/
def parseAddresses (jsonParse : String → Option AddrMap) : AddrInput → AddrMap
  | .nullv => []
  | .strv s =>
    if s = "" then []
    else
      match jsonParse s with
      | some m => m
      | none => []
  | .objv m => m
  | .otherv => []

/-! ## ECO chain-ledger deduction and credit -/

/-- The result of the `deductFromEcoWallet` loop: the updated chain map, the
deduction details, the remaining amount and the private ledger. -/
structure DeductOut where
  chains : AddrMap
  details : List (String × JNum)
  remaining : JNum
  ledger : List LedgerEntry
deriving DecidableEq

/-- The `for (const chain in addresses)` loop of `deductFromEcoWallet`:
chains with positive balance contribute `Math.min(balance, remaining)`, the
contribution is pushed onto the deduction details and mirrored into the
private ledger, and the loop breaks once `remaining <= 0`. -/
def deductLoop (walletId : Nat) (currency : String) :
    AddrMap → JNum → List LedgerEntry → DeductOut
  | [], remaining, l => { chains := [], details := [], remaining := remaining, ledger := l }
  | (chain, info) :: rest, remaining, l =>
    if fgt info.balance (some 0) then
      let transferableAmount := fmin info.balance remaining
      let info' := { info with balance := fsub info.balance transferableAmount }
      let l' := updatePrivateLedger l walletId 0 currency chain (fneg transferableAmount)
      let remaining' := fsub remaining transferableAmount
      if fle remaining' (some 0) then
        { chains := (chain, info') :: rest, details := [(chain, transferableAmount)],
          remaining := remaining', ledger := l' }
      else
        let r := deductLoop walletId currency rest remaining' l'
        { r with chains := (chain, info') :: r.chains,
                 details := (chain, transferableAmount) :: r.details }
    else
      let r := deductLoop walletId currency rest remaining l
      { r with chains := (chain, info) :: r.chains }

/-- `deductFromEcoWallet`: greedily deduct `amount` across the wallet's chain
balances; if something remains after visiting every chain, throw the
insufficient-chain-balance error, otherwise persist the new address map and
return the deduction details. -/
def deductFromEcoWallet (wallet : Wallet) (amount : JNum) (currency : String)
    (ledger : List LedgerEntry) :
    Except Err (Wallet × List (String × JNum) × List LedgerEntry) :=
  let addresses := wallet.address
  let r := deductLoop wallet.id currency addresses amount ledger
  if fgt r.remaining (some 0) then
    .error { statusCode := 400, message := "Insufficient chain balance to complete the transfer" }
  else
    .ok ({ wallet with address := r.chains }, r.details, r.ledger)

/-- `addresses[chain] = addresses[chain] || { balance: 0 };
addresses[chain].balance += amount` — credit one chain, creating the entry
with null address/network metadata when missing. -/
def addChainBalance (m : AddrMap) (chain : String) (amt : JNum) : AddrMap :=
  match m with
  | [] => [(chain, { address := none, network := none, balance := fadd (some 0) amt })]
  | (c, info) :: rest =>
    if c = chain then (c, { info with balance := fadd info.balance amt }) :: rest
    else (c, info) :: addChainBalance rest chain amt

/-- The loop of `addToEcoWallet` over the deduction details. -/
def addLoop (walletId : Nat) (currency : String) :
    List (String × JNum) → AddrMap → List LedgerEntry → AddrMap × List LedgerEntry
  | [], m, l => (m, l)
  | (chain, amt) :: rest, m, l =>
    addLoop walletId currency rest (addChainBalance m chain amt)
      (updatePrivateLedger l walletId 0 currency chain amt)

/-- `addToEcoWallet`: credit each deduction detail to the destination
wallet's chain map, mirror each credit into the private ledger, and persist
the new address map. -/
def addToEcoWallet (wallet : Wallet) (details : List (String × JNum))
    (currency : String) (ledger : List LedgerEntry) : Wallet × List LedgerEntry :=
  let r := addLoop wallet.id currency details wallet.address ledger
  ({ wallet with address := r.1 }, r.2)

/-! ## Transfer mutation branches -/

/-- Overwrite the balance of one chain entry (the in-place mutation
`chainInfo.balance -= transferableAmount` seen through the address map). -/
def setChainBalance (m : AddrMap) (chain : String) (newBal : JNum) : AddrMap :=
  m.map (fun p => if p.1 = chain then (p.1, { p.2 with balance := newBal }) else p)

/-- The result of the chain loop of `handleEcoClientBalanceTransfer`. -/
structure ClientLoopOut where
  fromChains : AddrMap
  toChains : AddrMap
  remaining : JNum
  ledger : List LedgerEntry
deriving DecidableEq

/-- The `for (const [chain, chainInfo] of getSortedChainBalances(...))` loop
of `handleEcoClientBalanceTransfer`: it breaks once `remaining <= 0`, moves
`Math.min(chainInfo.balance, remaining)` from the source chain to the same
destination chain, and mirrors both deltas into the private ledger. Each
chain occurs once in the map, so reading `chainInfo.balance` from the sorted
snapshot reads the current balance. -/
def ecoClientLoop (fromWalletId toWalletId : Nat) (currency : String) :
    AddrMap → AddrMap → AddrMap → JNum → List LedgerEntry → ClientLoopOut
  | [], fromM, toM, remaining, l =>
    { fromChains := fromM, toChains := toM, remaining := remaining, ledger := l }
  | (chain, chainInfo) :: rest, fromM, toM, remaining, l =>
    if fle remaining (some 0) then
      { fromChains := fromM, toChains := toM, remaining := remaining, ledger := l }
    else
      let transferableAmount := fmin chainInfo.balance remaining
      let fromM' := setChainBalance fromM chain (fsub chainInfo.balance transferableAmount)
      let toM' := addChainBalance toM chain transferableAmount
      let l' := updatePrivateLedger
        (updatePrivateLedger l fromWalletId 0 currency chain (fneg transferableAmount))
        toWalletId 0 currency chain transferableAmount
      ecoClientLoop fromWalletId toWalletId currency rest fromM' toM'
        (fsub remaining transferableAmount) l'

/-- `handleEcoClientBalanceTransfer`: walk the source chains in sorted-balance
order moving funds to the destination map, fail if anything remains, then
apply the aggregate balance update. The mutated in-memory chain maps are
never persisted by this function (it calls no `wallet.update` for the
address column); only the private-ledger rows and the aggregate balances
survive. Note both the debit and the credit passed to `updateWalletBalances`
are the gross `parsedAmount`. -/
def handleEcoClientBalanceTransfer (fromW toW : Wallet) (parsedAmount : JNum)
    (fromCurrency : String) (precision : Nat) (db : DB) :
    Except Err (Wallet × Wallet × DB) :=
  let fromAddresses := fromW.address
  let toAddresses := toW.address
  let r := ecoClientLoop fromW.id toW.id fromCurrency
    (getSortedChainBalances fromAddresses) fromAddresses toAddresses parsedAmount db.ledger
  if fgt r.remaining (some 0) then
    .error { statusCode := 400, message := "Insufficient chain balance across all addresses." }
  else
    .ok (updateWalletBalances fromW toW parsedAmount parsedAmount precision
      { db with ledger := r.ledger })

/-- `handleNonClientTransfer`: for ECO→ECO move the chain balances first
(persisting both address maps), then apply the aggregate balance update with
the gross debit and the net credit. -/
def handleNonClientTransfer (fromW toW : Wallet) (parsedAmount : JNum)
    (fromCurrency : String) (targetReceiveAmount : JNum) (precision : Nat)
    (db : DB) : Except Err (Wallet × Wallet × DB) :=
  if fromW.type = WalletType.ECO ∧ toW.type = WalletType.ECO then
    match deductFromEcoWallet fromW parsedAmount fromCurrency db.ledger with
    | .error e => .error e
    | .ok (fw1, deductionDetails, l1) =>
      let a := addToEcoWallet toW deductionDetails fromCurrency l1
      let db1 := saveWallet (saveWallet { db with ledger := a.2 } fw1) a.1
      .ok (updateWalletBalances fw1 a.1 parsedAmount targetReceiveAmount precision db1)
  else
    .ok (updateWalletBalances fromW toW parsedAmount targetReceiveAmount precision db)

/-- `handleCompleteTransfer`: dispatch between the client ECO chain transfer
and the generic path. -/
def handleCompleteTransfer (transferType : String) (fromType : WalletType)
    (fromW toW : Wallet) (parsedAmount targetReceiveAmount : JNum)
    (fromCurrency : String) (precision : Nat) (db : DB) :
    Except Err (Wallet × Wallet × DB) :=
  if fromType = WalletType.ECO ∧ transferType = "client" then
    handleEcoClientBalanceTransfer fromW toW parsedAmount fromCurrency precision db
  else
    handleNonClientTransfer fromW toW parsedAmount fromCurrency targetReceiveAmount precision db

/-- `handlePendingTransfer`: debit the source immediately; credit the
destination only when the status is already COMPLETED (never the case on the
pending path, where the status is PENDING). -/
def handlePendingTransfer (fromW toW : Wallet) (totalDeducted targetReceiveAmount : JNum)
    (transferStatus : String) (precision : Nat) (db : DB) : Wallet × Wallet × DB :=
  let newFromBalance := calculateNewBalance fromW.balance (fneg totalDeducted) precision
  let fw := { fromW with balance := newFromBalance }
  let db1 := saveWallet db fw
  if transferStatus = "COMPLETED" then
    let newToBalance := calculateNewBalance toW.balance targetReceiveAmount precision
    let tw := { toW with balance := newToBalance }
    (fw, tw, saveWallet db1 tw)
  else
    (fw, toW, db1)

/-! ## The transfer orchestrator -/

/-- `performTransaction`. The fee percentage comes from the settings cache;
`policy` stands for the external collaborator rule
`requiresPrivateLedgerUpdate(transferType, fromType, toType)` (not among the
sources), kept abstract. An `Except.error` models a throw inside
`sequelize.transaction`, which rolls the whole atomic scope back: no store
escapes on the error path. -/
def performTransaction (transferType : String) (fromWallet toWallet : Wallet)
    (parsedAmount : JNum) (fromCurrency toCurrency : String)
    (userId : Nat) (clientId : Option Nat) (fromType toType : WalletType)
    (precision : Nat) (feePct : ℚ) (policy : String → WalletType → WalletType → Bool)
    (db : DB) : Except Err (DB × TransferRecord × TransferRecord) :=
  let transferFeeAmount := calculateTransferFee parsedAmount feePct
  let totalDeducted := parsedAmount
  let targetReceiveAmount := fsub parsedAmount transferFeeAmount
  if flt fromWallet.balance totalDeducted then
    .error { statusCode := 400, message := "Insufficient balance to cover transfer and fees." }
  else
    let requiresLedgerUpdate := policy transferType fromType toType
    let transferStatus := if requiresLedgerUpdate then "PENDING" else "COMPLETED"
    let branch : Except Err (Wallet × Wallet × DB) :=
      if !requiresLedgerUpdate then
        handleCompleteTransfer transferType fromType fromWallet toWallet
          parsedAmount targetReceiveAmount fromCurrency precision db
      else
        .ok (handlePendingTransfer fromWallet toWallet totalDeducted
          targetReceiveAmount transferStatus precision db)
    match branch with
    | .error e => .error e
    | .ok (_, _, db1) =>
      let c1 := createTransferTransaction db1 userId fromWallet.id "OUTGOING_TRANSFER"
        parsedAmount transferFeeAmount fromCurrency toCurrency fromWallet.id toWallet.id
        ("Transfer to " ++ wtypeStr toType ++ " wallet") transferStatus
      let c2 := createTransferTransaction c1.2
        (if transferType = "client" then clientId.getD 0 else userId) toWallet.id
        "INCOMING_TRANSFER" targetReceiveAmount (some 0) fromCurrency toCurrency
        fromWallet.id toWallet.id ("Transfer from " ++ wtypeStr fromType ++ " wallet")
        transferStatus
      let db3 :=
        if fgt transferFeeAmount (some 0) then
          recordAdminProfit c2.2
            { userId := userId, transferFeeAmount := transferFeeAmount,
              fromCurrency := fromCurrency, fromType := fromType, toType := toType,
              transactionId := c1.1.id }
        else c2.2
      .ok (db3, c1.1, c2.1)

/-! ## Wallet resolution and the `createTransfer` handler -/

/-- `handleClientTransfer`: resolve the destination wallet of a client
transfer — same currency and same type as the source; the ECO case goes
through the ECO-specific lookup, the other types through find-or-create.
(The trailing `if (!toWallet) throw 404` of the source cannot fire, since
both resolution paths create the wallet on demand.) -/
def handleClientTransfer (clientId : Option Nat) (currency : String)
    (fromType : WalletType) (db : DB) : Except Err ((Wallet × Nat) × DB) :=
  match clientId with
  | none => .error { statusCode := 400, message := "Client ID is required" }
  | some cid =>
    if cid ∈ db.users then
      if fromType = WalletType.ECO then
        let r := getWalletByUserIdAndCurrency cid currency db
        .ok ((r.1, cid), r.2)
      else
        match findWallet db cid currency fromType with
        | some w => .ok ((w, cid), db)
        | none =>
          let r := createWallet db cid currency fromType
          .ok ((r.1, cid), r.2)
    else .error { statusCode := 404, message := "Target user not found" }

/-- The `validTransfers` route table of `handleWalletTransfer`. -/
def validTransfers : WalletType → List WalletType
  | .FIAT => [.SPOT, .ECO]
  | .SPOT => [.FIAT, .ECO]
  | .ECO => [.FIAT, .SPOT, .FUTURES]
  | .FUTURES => [.ECO]

/-- `handleWalletTransfer`: reject same-type transfers, enforce the route
table, then find or create the destination wallet. -/
def handleWalletTransfer (userId : Nat) (fromType toType : WalletType)
    (toCurrency : String) (db : DB) : Except Err (Wallet × DB) :=
  if fromType = toType then
    .error { statusCode := 400, message := "Cannot transfer to the same wallet type" }
  else if toType ∈ validTransfers fromType then
    match findWallet db userId toCurrency toType with
    | some w => .ok (w, db)
    | none => .ok (createWallet db userId toCurrency toType)
  else
    .error { statusCode := 400, message := "Invalid wallet type transfer" }

/-- The destination-wallet dispatch of the handler (`transferType ===
"client" ? handleClientTransfer : handleWalletTransfer`); the second
component of the pair is `toUser?.id`. -/
def resolveToWallet (transferType : String) (userId : Nat) (clientId : Option Nat)
    (fromType toType : WalletType) (fromCurrency toCurrency : String) (db : DB) :
    Except Err ((Wallet × Option Nat) × DB) :=
  if transferType = "client" then
    match handleClientTransfer clientId fromCurrency fromType db with
    | .error e => .error e
    | .ok ((w, cid), db') => .ok ((w, some cid), db')
  else
    match handleWalletTransfer userId fromType toType toCurrency db with
    | .error e => .error e
    | .ok (w, db') => .ok ((w, none), db')

/-- The request body of `createTransfer`. `amount` is the value of
`parseFloat(body.amount)`: `none` when the request's amount is not a valid
number. -/
structure TransferRequest where
  fromType : WalletType
  toType : WalletType
  amount : JNum
  transferType : String
  clientId : Option Nat
  fromCurrency : String
  toCurrency : String
deriving DecidableEq

/-- The success payload of `createTransfer`. -/
structure TransferResponse where
  message : String
  fromTransfer : TransferRecord
  toTransfer : TransferRecord
  fromType : WalletType
  toType : WalletType
  fromCurrency : String
  toCurrency : String
deriving DecidableEq

/-- The `createTransfer` route handler (the default export). The first
component of the result is the store after the request: wallet rows created
during resolution persist even when `performTransaction` later rolls back,
while an error inside the atomic scope discards all of its writes. The
fire-and-forget `sendTransferEmails` collaborator is external and has no
effect on the store. -/
def createTransfer (userOpt : Option Nat) (req : TransferRequest) (feePct : ℚ)
    (getPrecision : WalletType → String → Option Nat)
    (policy : String → WalletType → WalletType → Bool) (db : DB) :
    DB × Except Err TransferResponse :=
  match userOpt with
  | none => (db, .error { statusCode := 401, message := "Unauthorized" })
  | some userId =>
    if req.toCurrency = "Select a currency" then
      (db, .error { statusCode := 400, message := "Please select a target currency" })
    else if userId ∈ db.users then
      match findWallet db userId req.fromCurrency req.fromType with
      | none => (db, .error { statusCode := 404, message := "Wallet not found" })
      | some fromWallet =>
        match resolveToWallet req.transferType userId req.clientId req.fromType
            req.toType req.fromCurrency req.toCurrency db with
        | .error e => (db, .error e)
        | .ok ((toWallet, toUserId), db1) =>
          let parsedAmount := req.amount
          if flt fromWallet.balance parsedAmount then
            (db1, .error { statusCode := 400, message := "Insufficient balance" })
          else
            match getPrecision req.fromType req.fromCurrency with
            | none => (db1, .error { statusCode := 400, message := "Invalid wallet type" })
            | some precision =>
              match performTransaction req.transferType fromWallet toWallet parsedAmount
                  req.fromCurrency req.toCurrency userId toUserId req.fromType req.toType
                  precision feePct policy db1 with
              | .error e => (db1, .error e)
              | .ok (db2, fromTransfer, toTransfer) =>
                (db2, .ok { message := "Transfer initiated successfully",
                            fromTransfer := fromTransfer, toTransfer := toTransfer,
                            fromType := req.fromType, toType := req.toType,
                            fromCurrency := req.fromCurrency, toCurrency := req.toCurrency })
    else (db, .error { statusCode := 404, message := "User not found" })

/-! ## `processInternalTransfer` -/

/-- The value returned by `processInternalTransfer`. -/
structure InternalResult where
  outgoingTransfer : TransferRecord
  incomingTransfer : TransferRecord
  balance : Option JNum
  method : String
  currency : String
deriving DecidableEq

/-- The part of the `processInternalTransfer` atomic scope after the chain
moves: aggregate balance update, the two transfer-transaction rows (both
COMPLETED), and the conditional admin profit row. -/
def internalFinish (fromUserId toUserId : Nat) (currency : String)
    (fromW toW : Wallet) (parsedAmount transferFeeAmount targetReceiveAmount : JNum)
    (precision : Nat) (db : DB) : DB × TransferRecord × TransferRecord :=
  let u := updateWalletBalances fromW toW parsedAmount targetReceiveAmount precision db
  let c1 := createTransferTransaction u.2.2 fromUserId fromW.id "OUTGOING_TRANSFER"
    parsedAmount transferFeeAmount currency currency fromW.id toW.id
    ("Internal transfer to user " ++ toString toUserId) "COMPLETED"
  let c2 := createTransferTransaction c1.2 toUserId toW.id "INCOMING_TRANSFER"
    targetReceiveAmount (some 0) currency currency fromW.id toW.id
    ("Internal transfer from user " ++ toString fromUserId) "COMPLETED"
  let db3 :=
    if fgt transferFeeAmount (some 0) then
      recordAdminProfit c2.2
        { userId := fromUserId, transferFeeAmount := transferFeeAmount,
          fromCurrency := currency, fromType := WalletType.ECO,
          toType := WalletType.ECO, transactionId := c1.1.id }
    else c2.2
  (db3, c1.1, c2.1)

/-- The `sequelize.transaction` body of `processInternalTransfer`: for
ECO-to-ECO (always the case there) move the chain balances, then finish with
the balance update, the two COMPLETED legs and the conditional profit row. -/
def internalAtomic (fromUserId toUserId : Nat) (currency : String)
    (fromWallet toWallet : Wallet) (parsedAmount transferFeeAmount targetReceiveAmount : JNum)
    (gp : WalletType → String → Option Nat) (db1 : DB) :
    Except Err (DB × TransferRecord × TransferRecord) :=
  if fromWallet.type = WalletType.ECO ∧ toWallet.type = WalletType.ECO then
    match deductFromEcoWallet fromWallet parsedAmount currency db1.ledger with
    | .error e => .error e
    | .ok (fw1, deductionDetails, l1) =>
      let a := addToEcoWallet toWallet deductionDetails currency l1
      let db2 := saveWallet (saveWallet { db1 with ledger := a.2 } fw1) a.1
      match gp fromWallet.type fromWallet.currency with
      | none => .error { statusCode := 500, message := "Internal Server Error" }
      | some precision =>
        .ok (internalFinish fromUserId toUserId currency fw1 a.1 parsedAmount
          transferFeeAmount targetReceiveAmount precision db2)
  else
    .ok (internalFinish fromUserId toUserId currency fromWallet toWallet
      parsedAmount transferFeeAmount targetReceiveAmount 8 db1)

/-- `processInternalTransfer`: ECO-to-ECO transfer between two users.
The destination wallet is created before the atomic scope when missing (that
write persists even if the transfer then fails); inside the scope the chain
ledgers move, balances update and both legs are recorded as COMPLETED. The
first component of the result is the store afterwards; an error inside the
scope rolls its writes back. `getPrecision` stands for the external
`getCurrencyData`; a missing currency row makes the source dereference
`null.precision`, modelled as an internal failure. -/
def processInternalTransfer (fromUserId toUserId : Nat) (currency chain : String)
    (amount : JNum) (feePct : ℚ) (getPrecision : WalletType → String → Option Nat)
    (db : DB) : DB × Except Err InternalResult :=
  match findWallet db fromUserId currency WalletType.ECO with
  | none => (db, .error { statusCode := 404, message := "Sender wallet not found" })
  | some fromWallet =>
    let resolved : Wallet × DB :=
      match findWallet db toUserId currency WalletType.ECO with
      | some w => (w, db)
      | none => createWallet db toUserId currency WalletType.ECO
    let toWallet := resolved.1
    let db1 := resolved.2
    let parsedAmount := amount
    if flt fromWallet.balance parsedAmount then
      (db1, .error { statusCode := 400, message := "Insufficient balance." })
    else
      let transferFeeAmount := fdivC (fmul parsedAmount (some feePct)) 100
      let targetReceiveAmount := fsub parsedAmount transferFeeAmount
      match internalAtomic fromUserId toUserId currency fromWallet toWallet
          parsedAmount transferFeeAmount targetReceiveAmount getPrecision db1 with
      | .error e => (db1, .error e)
      | .ok (db2, outgoingTransfer, incomingTransfer) =>
        let userWallet := findWallet db2 fromUserId currency WalletType.ECO
        (db2, .ok { outgoingTransfer := outgoingTransfer,
                    incomingTransfer := incomingTransfer,
                    balance := userWallet.map Wallet.balance,
                    method := chain, currency := currency })

/-! ## Specification-side definitions -/

/-- Spec-side model of §4.4's deduction order (used to state Claim C2):
walking the chain list in order, every chain with positive balance
contributes exactly `min(chainBalance, remaining)` until the amount is
satisfied. -/
def specGreedy : List (String × ℚ) → ℚ → List (String × ℚ)
  | [], _ => []
  | (c, b) :: rest, remaining =>
    if 0 < b then
      let t := min b remaining
      if remaining - t ≤ 0 then [(c, t)]
      else (c, t) :: specGreedy rest (remaining - t)
    else specGreedy rest remaining

/-- Spec-side route table of §4.2 (used to state Claim C4): exactly
FIAT↔SPOT, FIAT↔ECO, SPOT↔ECO, ECO→FUTURES and FUTURES→ECO. -/
def allowedPair (a b : WalletType) : Bool :=
  decide ((a, b) ∈ ([(.FIAT, .SPOT), (.SPOT, .FIAT), (.FIAT, .ECO), (.ECO, .FIAT),
    (.SPOT, .ECO), (.ECO, .SPOT), (.ECO, .FUTURES), (.FUTURES, .ECO)] :
    List (WalletType × WalletType)))

/-- The rational view of a chain map (balances of finite entries). -/
def chainsQ (m : AddrMap) : List (String × ℚ) :=
  m.map (fun p => (p.1, numQ p.2.balance))

/-- The rational view of a deduction-details list. -/
def detailsQn (d : List (String × JNum)) : List (String × ℚ) :=
  d.map (fun p => (p.1, numQ p.2))

/-- The sum of the amounts of a deduction-details list. -/
def detailsSum (d : List (String × JNum)) : ℚ :=
  (d.map (fun p => numQ p.2)).sum

/-- The total balance available for deduction across a chain map: the sum of
the positive parts of the chain balances. -/
def posSum (m : AddrMap) : ℚ :=
  (m.map (fun p => max (numQ p.2.balance) 0)).sum

/-- Every chain balance in the map is finite (not `NaN`). -/
def allSomeChains (m : AddrMap) : Prop :=
  ∀ p ∈ m, (p.2.balance).isSome = true

/-- Every chain balance in the map is nonnegative. -/
def nonnegChains (m : AddrMap) : Prop :=
  ∀ p ∈ m, 0 ≤ numQ p.2.balance

/-- The payload of a successful `Except` computation. -/
def exOk : Except Err α → Option α
  | .ok a => some a
  | .error _ => none

/-! ## Basic lemmas about the number model -/

@[simp] theorem flt_some_some (a b : ℚ) : flt (some a) (some b) = decide (a < b) := rfl

@[simp] theorem flt_none_right (a : JNum) : flt a none = false := by cases a <;> rfl

@[simp] theorem flt_none_left (a : JNum) : flt none a = false := by cases a <;> rfl

@[simp] theorem fle_some_some (a b : ℚ) : fle (some a) (some b) = decide (a ≤ b) := rfl

@[simp] theorem fgt_some_some (a b : ℚ) : fgt (some a) (some b) = decide (b < a) := rfl

@[simp] theorem fmin_some_some (a b : ℚ) : fmin (some a) (some b) = some (min a b) := rfl

@[simp] theorem fsub_some_some (a b : ℚ) : fsub (some a) (some b) = some (a - b) := rfl

@[simp] theorem fadd_some_some (a b : ℚ) : fadd (some a) (some b) = some (a + b) := rfl

@[simp] theorem fneg_some (a : ℚ) : fneg (some a) = some (-a) := rfl

@[simp] theorem numQ_some (a : ℚ) : numQ (some a) = a := rfl

@[simp] theorem posSum_nil : posSum [] = 0 := rfl

@[simp] theorem posSum_cons (p : String × ChainInfo) (rest : AddrMap) :
    posSum (p :: rest) = max (numQ p.2.balance) 0 + posSum rest := by
  simp [posSum]

theorem posSum_nonneg (m : AddrMap) : 0 ≤ posSum m := by
  induction m with
  | nil => simp
  | cons p rest ih =>
    have : (0:ℚ) ≤ max (numQ p.2.balance) 0 := le_max_right _ _
    simp only [posSum_cons]
    linarith

@[simp] theorem detailsSum_nil : detailsSum [] = 0 := rfl

@[simp] theorem detailsSum_cons (p : String × JNum) (rest : List (String × JNum)) :
    detailsSum (p :: rest) = numQ p.2 + detailsSum rest := by
  simp [detailsSum]

@[simp] theorem chainsQ_nil : chainsQ [] = [] := rfl

@[simp] theorem chainsQ_cons (p : String × ChainInfo) (rest : AddrMap) :
    chainsQ (p :: rest) = (p.1, numQ p.2.balance) :: chainsQ rest := rfl

@[simp] theorem detailsQn_nil : detailsQn [] = [] := rfl

@[simp] theorem detailsQn_cons (p : String × JNum) (rest : List (String × JNum)) :
    detailsQn (p :: rest) = (p.1, numQ p.2) :: detailsQn rest := rfl

@[simp] theorem allSomeChains_nil : allSomeChains [] := by
  intro p hp; cases hp

@[simp] theorem nonnegChains_nil : nonnegChains [] := by
  intro p hp; cases hp

theorem allSomeChains_cons {p : String × ChainInfo} {rest : AddrMap} :
    allSomeChains (p :: rest) ↔ (p.2.balance).isSome = true ∧ allSomeChains rest := by
  simp [allSomeChains]

theorem nonnegChains_cons {p : String × ChainInfo} {rest : AddrMap} :
    nonnegChains (p :: rest) ↔ 0 ≤ numQ p.2.balance ∧ nonnegChains rest := by
  simp [nonnegChains]


theorem deductLoop_cons_skip (wid : Nat) (cur c : String) (info : ChainInfo)
    (rest : AddrMap) (r : JNum) (l : List LedgerEntry)
    (h : fgt info.balance (some 0) = false) :
    deductLoop wid cur ((c, info) :: rest) r l =
      { deductLoop wid cur rest r l with
        chains := (c, info) :: (deductLoop wid cur rest r l).chains } := by
  simp [deductLoop, h]

theorem deductLoop_cons_break (wid : Nat) (cur c : String) (info : ChainInfo)
    (rest : AddrMap) (r : JNum) (l : List LedgerEntry)
    (h : fgt info.balance (some 0) = true)
    (h2 : fle (fsub r (fmin info.balance r)) (some 0) = true) :
    deductLoop wid cur ((c, info) :: rest) r l =
      { chains := (c, { info with balance := fsub info.balance (fmin info.balance r) }) :: rest,
        details := [(c, fmin info.balance r)],
        remaining := fsub r (fmin info.balance r),
        ledger := updatePrivateLedger l wid 0 cur c (fneg (fmin info.balance r)) } := by
  simp [deductLoop, h, h2]

theorem deductLoop_cons_go (wid : Nat) (cur c : String) (info : ChainInfo)
    (rest : AddrMap) (r : JNum) (l : List LedgerEntry)
    (h : fgt info.balance (some 0) = true)
    (h2 : fle (fsub r (fmin info.balance r)) (some 0) = false) :
    deductLoop wid cur ((c, info) :: rest) r l =
      { chains := (c, { info with balance := fsub info.balance (fmin info.balance r) }) ::
          (deductLoop wid cur rest (fsub r (fmin info.balance r))
            (updatePrivateLedger l wid 0 cur c (fneg (fmin info.balance r)))).chains,
        details := (c, fmin info.balance r) ::
          (deductLoop wid cur rest (fsub r (fmin info.balance r))
            (updatePrivateLedger l wid 0 cur c (fneg (fmin info.balance r)))).details,
        remaining := (deductLoop wid cur rest (fsub r (fmin info.balance r))
            (updatePrivateLedger l wid 0 cur c (fneg (fmin info.balance r)))).remaining,
        ledger := (deductLoop wid cur rest (fsub r (fmin info.balance r))
            (updatePrivateLedger l wid 0 cur c (fneg (fmin info.balance r)))).ledger } := by
  simp [deductLoop, h, h2]

theorem specGreedy_cons (c : String) (b : ℚ) (rest : List (String × ℚ)) (r : ℚ) :
    specGreedy ((c, b) :: rest) r =
      if 0 < b then
        if r - min b r ≤ 0 then [(c, min b r)]
        else (c, min b r) :: specGreedy rest (r - min b r)
      else specGreedy rest r := rfl

/-- Invariant of the `deductFromEcoWallet` loop: on finite inputs the
remaining amount stays finite, the details account exactly for the consumed
part of the request, consume at most the available positive balance, keep
the remaining amount nonnegative, preserve finiteness and nonnegativity of
the chain balances, and are exactly the spec-side greedy-minimum schedule. -/
theorem deductLoop_spec (walletId : Nat) (currency : String) (m : AddrMap) :
    ∀ (r : ℚ) (l : List LedgerEntry), allSomeChains m →
      ∃ rq : ℚ,
        (deductLoop walletId currency m (some r) l).remaining = some rq ∧
        detailsSum (deductLoop walletId currency m (some r) l).details + rq = r ∧
        detailsSum (deductLoop walletId currency m (some r) l).details ≤ posSum m ∧
        (0 ≤ r → 0 ≤ rq) ∧
        allSomeChains (deductLoop walletId currency m (some r) l).chains ∧
        (nonnegChains m → nonnegChains (deductLoop walletId currency m (some r) l).chains) ∧
        detailsQn (deductLoop walletId currency m (some r) l).details =
          specGreedy (chainsQ m) r := by
  induction m with
  | nil =>
    intro r l _
    exact ⟨r, rfl, by simp [deductLoop], by simp [deductLoop], fun h => h,
      by simp [deductLoop], fun _ => by simp [deductLoop], by simp [deductLoop, specGreedy]⟩
  | cons p rest ih =>
    obtain ⟨c, info⟩ := p
    intro r l hsome
    obtain ⟨hbs, hsome'⟩ := allSomeChains_cons.mp hsome
    obtain ⟨b, hb⟩ := Option.isSome_iff_exists.mp hbs
    have hb2 : info.balance = some b := hb
    by_cases hpos : (0:ℚ) < b
    · have hA : fgt info.balance (some 0) = true := by
        rw [hb2, fgt_some_some]
        exact decide_eq_true hpos
      by_cases hbreak : r - min b r ≤ 0
      · have hB : fle (fsub (some r) (fmin info.balance (some r))) (some 0) = true := by
          rw [hb2, fmin_some_some, fsub_some_some, fle_some_some]
          exact decide_eq_true hbreak
        have e : deductLoop walletId currency ((c, info) :: rest) (some r) l =
            { chains := (c, { info with balance := some (b - min b r) }) :: rest,
              details := [(c, some (min b r))],
              remaining := some (r - min b r),
              ledger := updatePrivateLedger l walletId 0 currency c (some (-(min b r))) } := by
          rw [deductLoop_cons_break walletId currency c info rest (some r) l hA hB, hb2]
          simp only [fmin_some_some, fsub_some_some, fneg_some]
        rw [e]
        have hml : min b r ≤ b := min_le_left _ _
        have hmr : min b r ≤ r := min_le_right _ _
        refine ⟨r - min b r, rfl, ?_, ?_, ?_, ?_, ?_, ?_⟩
        · simp only [detailsSum_cons, detailsSum_nil, numQ_some]
          ring
        · simp only [detailsSum_cons, detailsSum_nil, numQ_some, posSum_cons, hb2]
          have h2 : (0:ℚ) ≤ posSum rest := posSum_nonneg rest
          have h3 : b ≤ max b 0 := le_max_left _ _
          linarith
        · intro h0
          linarith
        · exact allSomeChains_cons.mpr ⟨rfl, hsome'⟩
        · intro hnn
          refine nonnegChains_cons.mpr ⟨?_, (nonnegChains_cons.mp hnn).2⟩
          simp only [numQ_some]
          linarith
        · simp only [detailsQn_cons, detailsQn_nil, numQ_some, chainsQ_cons, hb2]
          rw [specGreedy_cons, if_pos hpos, if_pos hbreak]
      · have hB : fle (fsub (some r) (fmin info.balance (some r))) (some 0) = false := by
          rw [hb2, fmin_some_some, fsub_some_some, fle_some_some]
          exact decide_eq_false hbreak
        obtain ⟨rq, h1, h2, h3, h4, h5, h6, h7⟩ :=
          ih (r - min b r)
            (updatePrivateLedger l walletId 0 currency c (some (-(min b r)))) hsome'
        have e : deductLoop walletId currency ((c, info) :: rest) (some r) l =
            { chains := (c, { info with balance := some (b - min b r) }) ::
                (deductLoop walletId currency rest (some (r - min b r))
                  (updatePrivateLedger l walletId 0 currency c (some (-(min b r))))).chains,
              details := (c, some (min b r)) ::
                (deductLoop walletId currency rest (some (r - min b r))
                  (updatePrivateLedger l walletId 0 currency c (some (-(min b r))))).details,
              remaining := (deductLoop walletId currency rest (some (r - min b r))
                  (updatePrivateLedger l walletId 0 currency c (some (-(min b r))))).remaining,
              ledger := (deductLoop walletId currency rest (some (r - min b r))
                  (updatePrivateLedger l walletId 0 currency c (some (-(min b r))))).ledger } := by
          rw [deductLoop_cons_go walletId currency c info rest (some r) l hA hB, hb2]
          simp only [fmin_some_some, fsub_some_some, fneg_some]
        rw [e]
        have hml : min b r ≤ b := min_le_left _ _
        have hr' : 0 < r - min b r := by
          push_neg at hbreak
          exact hbreak
        refine ⟨rq, h1, ?_, ?_, ?_, ?_, ?_, ?_⟩
        · simp only [detailsSum_cons, numQ_some]
          linarith
        · simp only [detailsSum_cons, numQ_some, posSum_cons, hb2]
          have hp : (0:ℚ) ≤ posSum rest := posSum_nonneg rest
          have h3' : b ≤ max b 0 := le_max_left _ _
          linarith
        · intro _
          exact h4 (le_of_lt hr')
        · exact allSomeChains_cons.mpr ⟨rfl, h5⟩
        · intro hnn
          refine nonnegChains_cons.mpr ⟨?_, h6 (nonnegChains_cons.mp hnn).2⟩
          simp only [numQ_some]
          linarith
        · simp only [detailsQn_cons, numQ_some, chainsQ_cons, hb2, h7]
          rw [specGreedy_cons, if_pos hpos, if_neg hbreak]
    · have hA : fgt info.balance (some 0) = false := by
        rw [hb2, fgt_some_some]
        exact decide_eq_false hpos
      obtain ⟨rq, h1, h2, h3, h4, h5, h6, h7⟩ := ih r l hsome'
      rw [deductLoop_cons_skip walletId currency c info rest (some r) l hA]
      refine ⟨rq, h1, h2, ?_, h4, ?_, ?_, ?_⟩
      · have : (0:ℚ) ≤ max (numQ info.balance) 0 := le_max_right _ _
        simp only [posSum_cons]
        linarith
      · exact allSomeChains_cons.mpr ⟨hbs, h5⟩
      · intro hnn
        exact nonnegChains_cons.mpr ⟨(nonnegChains_cons.mp hnn).1,
          h6 (nonnegChains_cons.mp hnn).2⟩
      · simp only [chainsQ_cons, hb2, numQ_some, h7]
        rw [specGreedy_cons, if_neg hpos]

theorem findWallet_props {db : DB} {uid : Nat} {cur : String} {ty : WalletType}
    {w : Wallet} (h : findWallet db uid cur ty = some w) :
    w.userId = uid ∧ w.currency = cur ∧ w.type = ty := by
  have := List.find?_some h
  exact of_decide_eq_true this

/-- A deduction request strictly larger than the total positive chain balance
always throws the insufficient-chain-balance error. -/
theorem deductFromEcoWallet_insufficient (w : Wallet) (a : ℚ) (cur : String)
    (l : List LedgerEntry) (hsome : allSomeChains w.address)
    (hins : posSum w.address < a) :
    deductFromEcoWallet w (some a) cur l =
      .error { statusCode := 400,
               message := "Insufficient chain balance to complete the transfer" } := by
  obtain ⟨rq, h1, h2, h3, _, _, _, _⟩ := deductLoop_spec w.id cur w.address a l hsome
  have hrq : 0 < rq := by linarith
  simp only [deductFromEcoWallet]
  rw [h1, fgt_some_some, decide_eq_true hrq]
  rfl

/-- Claim C2: for every ECO chain-ledger deduction that succeeds (on finite,
nonnegative chain balances and a nonnegative requested amount), the deduction
details are exactly the spec-side greedy schedule — each visited chain
contributes `min(chainBalance, remaining)` — their amounts sum to exactly the
requested amount, and no chain balance in the resulting source address map is
negative. -/
theorem spec_c2_deduction_greedy (wallet : Wallet) (a : ℚ) (currency : String)
    (l : List LedgerEntry) (out : Wallet) (details : List (String × JNum))
    (l' : List LedgerEntry)
    (hsome : allSomeChains wallet.address) (hnn : nonnegChains wallet.address)
    (ha : 0 ≤ a)
    (hok : deductFromEcoWallet wallet (some a) currency l =
      Except.ok (out, details, l')) :
    detailsQn details = specGreedy (chainsQ wallet.address) a ∧
    detailsSum details = a ∧
    nonnegChains out.address := by
  obtain ⟨rq, h1, h2, h3, h4, h5, h6, h7⟩ :=
    deductLoop_spec wallet.id currency wallet.address a l hsome
  simp only [deductFromEcoWallet] at hok
  rw [h1, fgt_some_some] at hok
  by_cases hrq : (0:ℚ) < rq
  · rw [decide_eq_true hrq] at hok
    simp at hok
  · rw [decide_eq_false hrq] at hok
    simp only [Bool.false_eq_true, if_false] at hok
    obtain ⟨hw, hd, hl⟩ := by
      simpa using hok
    have hrq0 : rq = 0 := le_antisymm (not_lt.mp hrq) (h4 ha)
    refine ⟨?_, ?_, ?_⟩
    · rw [← hd]
      exact h7
    · rw [← hd]
      linarith
    · rw [← hw]
      exact h6 hnn

/-- Scenario B source wallet: chainA holds 30, chainB holds 80. -/
def c2wallet : Wallet :=
  { id := 1, userId := 1, currency := "USDT", type := WalletType.ECO,
    balance := some 110,
    address := [("chainA", { address := none, network := none, balance := some 30 }),
                ("chainB", { address := none, network := none, balance := some 80 })],
    status := true }

/-- Scenario B outcome: chainA drained, chainB reduced to 10. -/
def c2out : Wallet :=
  { c2wallet with
    address := [("chainA", { address := none, network := none, balance := some 0 }),
                ("chainB", { address := none, network := none, balance := some 10 })] }

def c2ledger : List LedgerEntry :=
  [{ walletId := 1, index := 0, currency := "USDT", chain := "chainA", delta := some (-30) },
   { walletId := 1, index := 0, currency := "USDT", chain := "chainB", delta := some (-70) }]

theorem c2deductEval : deductFromEcoWallet c2wallet (some 100) "USDT" [] =
    Except.ok (c2out, [("chainA", some 30), ("chainB", some 70)], c2ledger) := by
  norm_num [deductFromEcoWallet, deductLoop, c2wallet, c2out, c2ledger, fgt, flt, fle, fmin,
    fsub, fneg, updatePrivateLedger]

theorem spec_c2_witness :
    deductFromEcoWallet c2wallet (some 100) "USDT" [] =
      Except.ok (c2out, [("chainA", some 30), ("chainB", some 70)], c2ledger) ∧
    (detailsQn [("chainA", some 30), ("chainB", some 70)] =
       specGreedy (chainsQ c2wallet.address) 100 ∧
     detailsSum [("chainA", some 30), ("chainB", some 70)] = 100 ∧
     nonnegChains c2out.address) :=
  ⟨c2deductEval,
   spec_c2_deduction_greedy c2wallet 100 "USDT" []
     c2out [("chainA", some 30), ("chainB", some 70)] c2ledger
     (by simp [allSomeChains, c2wallet]) (by norm_num [nonnegChains, c2wallet])
     (by norm_num) c2deductEval⟩

/-- Claim C3: when the total balance available across the source wallet's
chains is strictly less than the requested amount (and the aggregate balance
check passes, so the atomic scope is actually entered), the ECO deduction
throws the insufficient-funds error and `processInternalTransfer` returns the
store unchanged: no wallet balance, chain balance, private-ledger row or
transaction row differs from the pre-transfer state. -/
theorem spec_c3_insufficient_chain_rollback
    (db : DB) (fromUserId toUserId : Nat) (currency chain : String) (a b : ℚ)
    (feePct : ℚ) (gp : WalletType → String → Option Nat) (fw tw : Wallet)
    (hfw : findWallet db fromUserId currency WalletType.ECO = some fw)
    (htw : findWallet db toUserId currency WalletType.ECO = some tw)
    (hbal : fw.balance = some b) (hba : a ≤ b)
    (hsome : allSomeChains fw.address)
    (hins : posSum fw.address < a) :
    processInternalTransfer fromUserId toUserId currency chain (some a) feePct gp db =
      (db, Except.error
        ⟨400, "Insufficient chain balance to complete the transfer"⟩) := by
  have hty : fw.type = WalletType.ECO := (findWallet_props hfw).2.2
  have htyt : tw.type = WalletType.ECO := (findWallet_props htw).2.2
  have hflt : flt fw.balance (some a) = false := by
    rw [hbal, flt_some_some]
    exact decide_eq_false (not_lt.mpr hba)
  have hded := deductFromEcoWallet_insufficient fw a currency db.ledger hsome hins
  simp only [processInternalTransfer, internalAtomic, hfw, htw, hflt, hty, htyt, hded,
    Bool.false_eq_true, if_false, and_self, if_true, reduceIte]

/-- Scenario C-style witness wallet: aggregate balance 100 but only 50
available across chains. -/
def c3fw : Wallet :=
  { id := 1, userId := 1, currency := "USDT", type := WalletType.ECO,
    balance := some 100,
    address := [("chainA", { address := none, network := none, balance := some 50 })],
    status := true }

def c3tw : Wallet :=
  { id := 2, userId := 2, currency := "USDT", type := WalletType.ECO,
    balance := some 0, address := [], status := true }

def c3db : DB :=
  { users := [1, 2], wallets := [c3fw, c3tw], ledger := [], transfers := [],
    profits := [], nextWalletId := 3, nextTxId := 1 }

theorem spec_c3_witness :
    processInternalTransfer 1 2 "USDT" "chainA" (some 60) 0 (fun _ _ => some 8) c3db =
      (c3db, Except.error
        ⟨400, "Insufficient chain balance to complete the transfer"⟩) :=
  spec_c3_insufficient_chain_rollback c3db 1 2 "USDT" "chainA" 60 100 0
    (fun _ _ => some 8) c3fw c3tw rfl rfl rfl (by norm_num)
    (by simp [allSomeChains, c3fw]) (by norm_num [posSum, c3fw, numQ])

/-- Whether an `Except` result is a success. -/
def exIsOk : Except Err α → Bool
  | .ok _ => true
  | .error _ => false

/-- The status code of a failed `Except` result. -/
def exErrCode : Except Err α → Option Nat
  | .error e => some e.statusCode
  | .ok _ => none

theorem handleWalletTransfer_isOk (uid : Nat) (ft tt : WalletType) (cur : String)
    (db : DB) :
    exIsOk (handleWalletTransfer uid ft tt cur db) =
      (decide (ft ≠ tt) && decide (tt ∈ validTransfers ft)) := by
  unfold handleWalletTransfer
  by_cases h1 : ft = tt
  · simp [h1, exIsOk]
  · by_cases h2 : tt ∈ validTransfers ft
    · cases hfw : findWallet db uid cur tt <;> simp [exIsOk, h1, h2, hfw]
    · simp [h1, h2, exIsOk]

theorem handleWalletTransfer_invalid (uid : Nat) (ft tt : WalletType) (cur : String)
    (db : DB) (h : allowedPair ft tt = false) :
    exErrCode (handleWalletTransfer uid ft tt cur db) = some 400 := by
  have hequiv : ∀ a b : WalletType,
      (decide (a ≠ b) && decide (b ∈ validTransfers a)) = allowedPair a b := by
    intro a b
    cases a <;> cases b <;> rfl
  by_cases h1 : ft = tt
  · simp [handleWalletTransfer, h1, exErrCode]
  · by_cases h2 : tt ∈ validTransfers ft
    · exfalso
      have := hequiv ft tt
      rw [h, decide_eq_true h1, decide_eq_true h2] at this
      simp at this
    · simp [handleWalletTransfer, h1, h2, exErrCode]

/-- Claim C4: the wallet-to-wallet route table accepts exactly the pairs
FIAT↔SPOT, FIAT↔ECO, SPOT↔ECO, ECO→FUTURES and FUTURES→ECO; a same-type
transfer is rejected; and for a wallet transfer whose pair is not allowed the
handler returns a 400 validation error with the store unchanged — before any
wallet, ledger or transaction-record mutation. -/
theorem spec_c4_route_validation :
    (∀ (ft tt : WalletType) (uid : Nat) (cur : String) (db : DB),
       exIsOk (handleWalletTransfer uid ft tt cur db) = allowedPair ft tt) ∧
    (∀ (t : WalletType) (uid : Nat) (cur : String) (db : DB),
       handleWalletTransfer uid t t cur db =
         Except.error ⟨400, "Cannot transfer to the same wallet type"⟩) ∧
    (∀ (uid : Nat) (req : TransferRequest) (feePct : ℚ)
       (gp : WalletType → String → Option Nat)
       (policy : String → WalletType → WalletType → Bool) (db : DB) (fw : Wallet),
       req.transferType ≠ "client" →
       allowedPair req.fromType req.toType = false →
       req.toCurrency ≠ "Select a currency" →
       uid ∈ db.users →
       findWallet db uid req.fromCurrency req.fromType = some fw →
       (createTransfer (some uid) req feePct gp policy db).1 = db ∧
       exErrCode (createTransfer (some uid) req feePct gp policy db).2 = some 400) := by
  have hequiv : ∀ a b : WalletType,
      (decide (a ≠ b) && decide (b ∈ validTransfers a)) = allowedPair a b := by
    intro a b
    cases a <;> cases b <;> rfl
  refine ⟨?_, ?_, ?_⟩
  · intro ft tt uid cur db
    rw [handleWalletTransfer_isOk, hequiv]
  · intro t uid cur db
    simp [handleWalletTransfer]
  · intro uid req feePct gp policy db fw hcl hbad hcur huser hfw
    have hroute := handleWalletTransfer_invalid uid req.fromType req.toType
      req.toCurrency db hbad
    obtain ⟨e, he, hcode⟩ : ∃ e, handleWalletTransfer uid req.fromType req.toType
        req.toCurrency db = Except.error e ∧ e.statusCode = 400 := by
      cases hh : handleWalletTransfer uid req.fromType req.toType req.toCurrency db with
      | ok v => rw [hh] at hroute; simp [exErrCode] at hroute
      | error e =>
        rw [hh] at hroute
        simp only [exErrCode, Option.some.injEq] at hroute
        exact ⟨e, rfl, hroute⟩
    simp only [createTransfer, resolveToWallet, if_neg hcur, if_pos huser, hfw,
      if_neg hcl, he]
    simp [exErrCode, hcode]

def c4fw : Wallet :=
  { id := 1, userId := 1, currency := "USD", type := WalletType.FUTURES,
    balance := some 10, address := [], status := true }

def c4db : DB :=
  { users := [1], wallets := [c4fw], ledger := [], transfers := [],
    profits := [], nextWalletId := 2, nextTxId := 1 }

/-- A FUTURES→FIAT request: an unsupported route. -/
def c4req : TransferRequest :=
  { fromType := WalletType.FUTURES, toType := WalletType.FIAT, amount := some 5,
    transferType := "wallet", clientId := none, fromCurrency := "USD",
    toCurrency := "EUR" }

theorem spec_c4_witness :
    exIsOk (handleWalletTransfer 1 WalletType.FIAT WalletType.SPOT "USD" c4db) =
      allowedPair WalletType.FIAT WalletType.SPOT ∧
    handleWalletTransfer 1 WalletType.ECO WalletType.ECO "USD" c4db =
      Except.error ⟨400, "Cannot transfer to the same wallet type"⟩ ∧
    (createTransfer (some 1) c4req 0 (fun _ _ => some 2) (fun _ _ _ => false) c4db).1 =
      c4db ∧
    exErrCode
      (createTransfer (some 1) c4req 0 (fun _ _ => some 2) (fun _ _ _ => false) c4db).2 =
      some 400 :=
  ⟨spec_c4_route_validation.1 WalletType.FIAT WalletType.SPOT 1 "USD" c4db,
   spec_c4_route_validation.2.1 WalletType.ECO 1 "USD" c4db,
   (spec_c4_route_validation.2.2 1 c4req 0 (fun _ _ => some 2) (fun _ _ _ => false)
     c4db c4fw (by decide) (by decide) (by decide) (by decide) rfl).1,
   (spec_c4_route_validation.2.2 1 c4req 0 (fun _ _ => some 2) (fun _ _ _ => false)
     c4db c4fw (by decide) (by decide) (by decide) (by decide) rfl).2⟩

theorem saveWallet_frame (db : DB) (w : Wallet) :
    (saveWallet db w).transfers = db.transfers ∧
    (saveWallet db w).profits = db.profits := ⟨rfl, rfl⟩

theorem handleEcoClientBalanceTransfer_frame {fromW toW : Wallet} {amt : JNum}
    {cur : String} {p : Nat} {db : DB} {fw tw : Wallet} {db' : DB}
    (h : handleEcoClientBalanceTransfer fromW toW amt cur p db =
      Except.ok (fw, tw, db')) :
    db'.transfers = db.transfers ∧ db'.profits = db.profits := by
  simp only [handleEcoClientBalanceTransfer] at h
  split at h
  · simp at h
  · injection h with h2
    rw [show db' = _ from congrArg (fun x => x.2.2) h2.symm]
    exact ⟨rfl, rfl⟩

theorem handleNonClientTransfer_frame {fromW toW : Wallet} {amt : JNum}
    {cur : String} {target : JNum} {p : Nat} {db : DB} {fw tw : Wallet} {db' : DB}
    (h : handleNonClientTransfer fromW toW amt cur target p db =
      Except.ok (fw, tw, db')) :
    db'.transfers = db.transfers ∧ db'.profits = db.profits := by
  unfold handleNonClientTransfer at h
  split at h
  · split at h
    · simp at h
    · injection h with h2
      rw [show db' = _ from congrArg (fun x => x.2.2) h2.symm]
      exact ⟨rfl, rfl⟩
  · injection h with h2
    rw [show db' = _ from congrArg (fun x => x.2.2) h2.symm]
    exact ⟨rfl, rfl⟩

theorem handleCompleteTransfer_frame {transferType : String} {fromType : WalletType}
    {fromW toW : Wallet} {amt target : JNum} {cur : String} {p : Nat} {db : DB}
    {fw tw : Wallet} {db' : DB}
    (h : handleCompleteTransfer transferType fromType fromW toW amt target cur p db =
      Except.ok (fw, tw, db')) :
    db'.transfers = db.transfers ∧ db'.profits = db.profits := by
  unfold handleCompleteTransfer at h
  split at h
  · exact handleEcoClientBalanceTransfer_frame h
  · exact handleNonClientTransfer_frame h

theorem handlePendingTransfer_frame (fromW toW : Wallet) (d target : JNum)
    (st : String) (p : Nat) (db : DB) :
    (handlePendingTransfer fromW toW d target st p db).2.2.transfers = db.transfers ∧
    (handlePendingTransfer fromW toW d target st p db).2.2.profits = db.profits := by
  unfold handlePendingTransfer
  split
  · exact ⟨rfl, rfl⟩
  · exact ⟨rfl, rfl⟩

theorem transferBranch_frame {transferType : String} {fromType : WalletType}
    {fromW toW : Wallet} {amt target : JNum} {cur : String} {p : Nat} {db : DB}
    {fw tw : Wallet} {db' : DB} {b : Bool} {st : String}
    (h : (if !b then
            handleCompleteTransfer transferType fromType fromW toW amt target cur p db
          else
            Except.ok (handlePendingTransfer fromW toW amt target st p db)) =
      Except.ok (fw, tw, db')) :
    db'.transfers = db.transfers ∧ db'.profits = db.profits := by
  cases b with
  | false =>
    simp only [Bool.not_false, if_true] at h
    exact handleCompleteTransfer_frame h
  | true =>
    simp only [Bool.not_true, Bool.false_eq_true, if_false] at h
    injection h with h2
    rw [show db' = _ from congrArg (fun x => x.2.2) h2.symm]
    exact handlePendingTransfer_frame fromW toW amt target st p db

theorem internalFinish_spec (fromUserId toUserId : Nat) (currency : String)
    (fw tw : Wallet) (pa fee target : JNum) (p : Nat) (db : DB) :
    (internalFinish fromUserId toUserId currency fw tw pa fee target p db).1.transfers =
      db.transfers ++
        [(internalFinish fromUserId toUserId currency fw tw pa fee target p db).2.1,
         (internalFinish fromUserId toUserId currency fw tw pa fee target p db).2.2] ∧
    (internalFinish fromUserId toUserId currency fw tw pa fee target p db).1.profits =
      db.profits ++
        (if fgt fee (some 0) then
          [{ userId := fromUserId, transferFeeAmount := fee, fromCurrency := currency,
             fromType := WalletType.ECO, toType := WalletType.ECO,
             transactionId :=
               (internalFinish fromUserId toUserId currency fw tw pa fee target p db).2.1.id }]
         else []) ∧
    (internalFinish fromUserId toUserId currency fw tw pa fee target p db).2.1.type =
      "OUTGOING_TRANSFER" ∧
    (internalFinish fromUserId toUserId currency fw tw pa fee target p db).2.1.amount = pa ∧
    (internalFinish fromUserId toUserId currency fw tw pa fee target p db).2.1.fee = fee ∧
    (internalFinish fromUserId toUserId currency fw tw pa fee target p db).2.2.type =
      "INCOMING_TRANSFER" ∧
    (internalFinish fromUserId toUserId currency fw tw pa fee target p db).2.2.amount =
      target ∧
    (internalFinish fromUserId toUserId currency fw tw pa fee target p db).2.2.fee =
      some 0 ∧
    (internalFinish fromUserId toUserId currency fw tw pa fee target p db).2.1.fromWalletId =
      fw.id ∧
    (internalFinish fromUserId toUserId currency fw tw pa fee target p db).2.1.toWalletId =
      tw.id ∧
    (internalFinish fromUserId toUserId currency fw tw pa fee target p db).2.2.fromWalletId =
      fw.id ∧
    (internalFinish fromUserId toUserId currency fw tw pa fee target p db).2.2.toWalletId =
      tw.id ∧
    (internalFinish fromUserId toUserId currency fw tw pa fee target p db).2.1.status =
      "COMPLETED" ∧
    (internalFinish fromUserId toUserId currency fw tw pa fee target p db).2.2.status =
      "COMPLETED" := by
  cases hfee : fgt fee (some 0) <;>
    simp [internalFinish, createTransferTransaction, recordAdminProfit,
      updateWalletBalances, saveWallet, hfee]


theorem internalAtomic_ok {fromUserId toUserId : Nat} {currency : String}
    {fromWallet toWallet : Wallet} {pa fee target : JNum}
    {gp : WalletType → String → Option Nat} {db1 db2 : DB}
    {o i : TransferRecord}
    (h : internalAtomic fromUserId toUserId currency fromWallet toWallet pa fee target
      gp db1 = Except.ok (db2, o, i)) :
    db2.transfers = db1.transfers ++ [o, i] ∧
    db2.profits = db1.profits ++
      (if fgt fee (some 0) then
        [{ userId := fromUserId, transferFeeAmount := fee, fromCurrency := currency,
           fromType := WalletType.ECO, toType := WalletType.ECO,
           transactionId := o.id }]
       else []) ∧
    o.type = "OUTGOING_TRANSFER" ∧ o.amount = pa ∧ o.fee = fee ∧
    i.type = "INCOMING_TRANSFER" ∧ i.amount = target ∧ i.fee = some 0 ∧
    o.fromWalletId = i.fromWalletId ∧ o.toWalletId = i.toWalletId ∧
    o.status = "COMPLETED" ∧ i.status = "COMPLETED" := by
  unfold internalAtomic at h
  split at h
  · split at h
    · simp at h
    · rename_i fw1 dd l1 heqd
      split at h
      · simp at h
      · rename_i p hp
        injection h with h2
        rw [show db2 = _ from congrArg (fun x => x.1) h2.symm,
            show o = _ from congrArg (fun x => x.2.1) h2.symm,
            show i = _ from congrArg (fun x => x.2.2) h2.symm]
        obtain ⟨t1, t2, t3, t4, t5, t6, t7, t8, t9, t10, t11, t12, t13, t14⟩ :=
          internalFinish_spec fromUserId toUserId currency fw1
            (addToEcoWallet toWallet dd currency l1).1 pa fee target p
            (saveWallet
              (saveWallet { db1 with ledger := (addToEcoWallet toWallet dd currency l1).2 } fw1)
              (addToEcoWallet toWallet dd currency l1).1)
        exact ⟨t1, t2, t3, t4, t5, t6, t7, t8, t9.trans t11.symm, t10.trans t12.symm,
          t13, t14⟩
  · injection h with h2
    rw [show db2 = _ from congrArg (fun x => x.1) h2.symm,
        show o = _ from congrArg (fun x => x.2.1) h2.symm,
        show i = _ from congrArg (fun x => x.2.2) h2.symm]
    obtain ⟨t1, t2, t3, t4, t5, t6, t7, t8, t9, t10, t11, t12, t13, t14⟩ :=
      internalFinish_spec fromUserId toUserId currency fromWallet toWallet
        pa fee target 8 db1
    exact ⟨t1, t2, t3, t4, t5, t6, t7, t8, t9.trans t11.symm, t10.trans t12.symm,
      t13, t14⟩

/-- Claim C5: every successful transfer creates exactly two transfer rows —
an OUTGOING_TRANSFER with the gross amount and the computed fee, and an
INCOMING_TRANSFER with the net receivable and zero fee, both referencing the
same fromWallet/toWallet pair and both carrying the orchestrator's resolved
status — for `performTransaction` and for `processInternalTransfer` alike. -/
theorem spec_c5_two_transfer_records :
    (∀ (transferType : String) (fromWallet toWallet : Wallet) (parsedAmount : JNum)
       (fromCurrency toCurrency : String) (userId : Nat) (clientId : Option Nat)
       (fromType toType : WalletType) (precision : Nat) (feePct : ℚ)
       (policy : String → WalletType → WalletType → Bool) (db db' : DB)
       (ft tt : TransferRecord),
       performTransaction transferType fromWallet toWallet parsedAmount fromCurrency
         toCurrency userId clientId fromType toType precision feePct policy db =
         Except.ok (db', ft, tt) →
       db'.transfers = db.transfers ++ [ft, tt] ∧
       ft.type = "OUTGOING_TRANSFER" ∧
       ft.amount = parsedAmount ∧
       ft.fee = calculateTransferFee parsedAmount feePct ∧
       tt.type = "INCOMING_TRANSFER" ∧
       tt.amount = fsub parsedAmount (calculateTransferFee parsedAmount feePct) ∧
       tt.fee = some 0 ∧
       ft.fromWalletId = fromWallet.id ∧ ft.toWalletId = toWallet.id ∧
       tt.fromWalletId = fromWallet.id ∧ tt.toWalletId = toWallet.id ∧
       ft.status = (if policy transferType fromType toType then "PENDING" else "COMPLETED") ∧
       tt.status = ft.status) ∧
    (∀ (fromUserId toUserId : Nat) (currency chain : String) (amount : JNum)
       (feePct : ℚ) (gp : WalletType → String → Option Nat) (db db' : DB)
       (r : InternalResult),
       processInternalTransfer fromUserId toUserId currency chain amount feePct gp db =
         (db', Except.ok r) →
       db'.transfers = db.transfers ++ [r.outgoingTransfer, r.incomingTransfer] ∧
       r.outgoingTransfer.type = "OUTGOING_TRANSFER" ∧
       r.outgoingTransfer.amount = amount ∧
       r.outgoingTransfer.fee = fdivC (fmul amount (some feePct)) 100 ∧
       r.incomingTransfer.type = "INCOMING_TRANSFER" ∧
       r.incomingTransfer.amount = fsub amount (fdivC (fmul amount (some feePct)) 100) ∧
       r.incomingTransfer.fee = some 0 ∧
       r.outgoingTransfer.fromWalletId = r.incomingTransfer.fromWalletId ∧
       r.outgoingTransfer.toWalletId = r.incomingTransfer.toWalletId ∧
       r.outgoingTransfer.status = "COMPLETED" ∧
       r.incomingTransfer.status = "COMPLETED") := by
  constructor
  · intro transferType fromWallet toWallet parsedAmount fromCurrency toCurrency userId
      clientId fromType toType precision feePct policy db db' ft tt h
    simp only [performTransaction] at h
    split at h
    · simp at h
    · split at h
      · simp at h
      · rename_i fw1 tw1 db1 heq
        injection h with h2
        rw [show db' = _ from congrArg (fun x => x.1) h2.symm,
            show ft = _ from congrArg (fun x => x.2.1) h2.symm,
            show tt = _ from congrArg (fun x => x.2.2) h2.symm]
        have hframe := transferBranch_frame heq
        refine ⟨?_, rfl, rfl, rfl, rfl, rfl, rfl, rfl, rfl, rfl, rfl, rfl, rfl⟩
        cases hfee : fgt (calculateTransferFee parsedAmount feePct) (some 0) <;>
          simp [createTransferTransaction, recordAdminProfit, hfee, hframe.1]
  · intro fromUserId toUserId currency chain amount feePct gp db db' r h
    simp only [processInternalTransfer] at h
    split at h
    · simp at h
    · rename_i fromWallet heqf
      split at h
      · simp at h
      · split at h
        · simp at h
        · rename_i db2 o i heqb
          rw [Prod.mk.injEq, Except.ok.injEq] at h
          obtain ⟨hdb, hr⟩ := h
          obtain ⟨a1, a2, a3, a4, a5, a6, a7, a8, a9, a10, a11, a12⟩ :=
            internalAtomic_ok heqb
          have hd1 : (match findWallet db toUserId currency WalletType.ECO with
              | some w => (w, db)
              | none => createWallet db toUserId currency WalletType.ECO).2.transfers =
              db.transfers := by
            cases findWallet db toUserId currency WalletType.ECO <;> rfl
          rw [hd1] at a1
          rw [← hdb, ← hr]
          exact ⟨a1, a3, a4, a5, a6, a7, a8, a9, a10, a11, a12⟩

/-- Scenario A source wallet: FIAT, balance 100. -/
def c5fw : Wallet :=
  { id := 1, userId := 1, currency := "USD", type := WalletType.FIAT,
    balance := some 100, address := [], status := true }

def c5tw : Wallet :=
  { id := 2, userId := 1, currency := "USD", type := WalletType.SPOT,
    balance := some 0, address := [], status := true }

def c5db : DB :=
  { users := [1], wallets := [c5fw, c5tw], ledger := [], transfers := [],
    profits := [], nextWalletId := 3, nextTxId := 10 }

def c5ft : TransferRecord :=
  { id := 10, userId := 1, walletId := 1, type := "OUTGOING_TRANSFER",
    amount := some 100, fee := some 1, fromCurrency := "USD", toCurrency := "USD",
    fromWalletId := 1, toWalletId := 2, description := "Transfer to SPOT wallet",
    status := "COMPLETED" }

def c5tt : TransferRecord :=
  { id := 11, userId := 1, walletId := 2, type := "INCOMING_TRANSFER",
    amount := some 99, fee := some 0, fromCurrency := "USD", toCurrency := "USD",
    fromWalletId := 1, toWalletId := 2, description := "Transfer from FIAT wallet",
    status := "COMPLETED" }

def c5dbAfter : DB :=
  { users := [1],
    wallets := [{ c5fw with balance := some 0 }, { c5tw with balance := some 99 }],
    ledger := [], transfers := [c5ft, c5tt],
    profits := [{ userId := 1, transferFeeAmount := some 1, fromCurrency := "USD",
                  fromType := WalletType.FIAT, toType := WalletType.SPOT,
                  transactionId := 10 }],
    nextWalletId := 3, nextTxId := 12 }

/-- Scenario A evaluated: FIAT→SPOT, amount 100, fee 1% ⇒ source −100,
destination +99, two records, one profit row of 1. -/
theorem c5perfEval :
    performTransaction "wallet" c5fw c5tw (some 100) "USD" "USD" 1 none
      WalletType.FIAT WalletType.SPOT 2 1 (fun _ _ _ => false) c5db =
      Except.ok (c5dbAfter, c5ft, c5tt) := by
  norm_num +decide [performTransaction, handleCompleteTransfer, handleNonClientTransfer,
    updateWalletBalances, saveWallet, createTransferTransaction, recordAdminProfit,
    calculateTransferFee, c5fw, c5tw, c5db, c5dbAfter, c5ft, c5tt, flt, fgt, fsub,
    fadd, fmul, fdivC, froundTo, qroundTo, round_eq, wtypeStr]

def c5ifw : Wallet :=
  { id := 1, userId := 1, currency := "USDT", type := WalletType.ECO,
    balance := some 50,
    address := [("ETH", { address := none, network := none, balance := some 50 })],
    status := true }

def c5itw : Wallet :=
  { id := 2, userId := 2, currency := "USDT", type := WalletType.ECO,
    balance := some 5, address := [], status := true }

def c5idb : DB :=
  { users := [1, 2], wallets := [c5ifw, c5itw], ledger := [], transfers := [],
    profits := [], nextWalletId := 3, nextTxId := 20 }

def c5io : TransferRecord :=
  { id := 20, userId := 1, walletId := 1, type := "OUTGOING_TRANSFER",
    amount := some 10, fee := some 0, fromCurrency := "USDT", toCurrency := "USDT",
    fromWalletId := 1, toWalletId := 2,
    description := "Internal transfer to user 2", status := "COMPLETED" }

def c5ii : TransferRecord :=
  { id := 21, userId := 2, walletId := 2, type := "INCOMING_TRANSFER",
    amount := some 10, fee := some 0, fromCurrency := "USDT", toCurrency := "USDT",
    fromWalletId := 1, toWalletId := 2,
    description := "Internal transfer from user 1", status := "COMPLETED" }

def c5ifwAfter : Wallet :=
  { id := 1, userId := 1, currency := "USDT", type := WalletType.ECO,
    balance := some 40,
    address := [("ETH", { address := none, network := none, balance := some 40 })],
    status := true }

def c5itwAfter : Wallet :=
  { id := 2, userId := 2, currency := "USDT", type := WalletType.ECO,
    balance := some 15,
    address := [("ETH", { address := none, network := none, balance := some 10 })],
    status := true }

def c5idbAfter : DB :=
  { users := [1, 2],
    wallets := [c5ifwAfter, c5itwAfter],
    ledger :=
      [{ walletId := 1, index := 0, currency := "USDT", chain := "ETH", delta := some (-10) },
       { walletId := 2, index := 0, currency := "USDT", chain := "ETH", delta := some 10 }],
    transfers := [c5io, c5ii], profits := [], nextWalletId := 3, nextTxId := 22 }

def c5ires : InternalResult :=
  { outgoingTransfer := c5io, incomingTransfer := c5ii,
    balance := some (some 40), method := "ETH", currency := "USDT" }

/-- A concrete zero-fee internal ECO-to-ECO transfer evaluated end to end. -/
theorem c5internalEval :
    processInternalTransfer 1 2 "USDT" "ETH" (some 10) 0 (fun _ _ => some 8) c5idb =
      (c5idbAfter, Except.ok c5ires) := by
  have hs1 : "Internal transfer to user " ++ toString (2:ℕ) =
      "Internal transfer to user 2" := by decide
  have hs2 : "Internal transfer from user " ++ toString (1:ℕ) =
      "Internal transfer from user 1" := by decide
  norm_num +decide [hs1, hs2, processInternalTransfer, internalAtomic, internalFinish,
    deductFromEcoWallet, deductLoop, addToEcoWallet, addLoop, addChainBalance,
    updatePrivateLedger, updateWalletBalances, saveWallet, createTransferTransaction,
    recordAdminProfit, findWallet, c5ifw, c5itw, c5idb, c5idbAfter, c5ifwAfter,
    c5itwAfter, c5io, c5ii, c5ires,
    flt, fgt, fle, fmin, fsub, fadd, fmul, fneg, fdivC, froundTo, qroundTo, round_eq]

theorem spec_c5_witness :
    (c5dbAfter.transfers = c5db.transfers ++ [c5ft, c5tt] ∧
     c5ft.type = "OUTGOING_TRANSFER" ∧
     c5ft.amount = some 100 ∧
     c5ft.fee = calculateTransferFee (some 100) 1 ∧
     c5tt.type = "INCOMING_TRANSFER" ∧
     c5tt.amount = fsub (some 100) (calculateTransferFee (some 100) 1) ∧
     c5tt.fee = some 0 ∧
     c5ft.fromWalletId = c5fw.id ∧ c5ft.toWalletId = c5tw.id ∧
     c5tt.fromWalletId = c5fw.id ∧ c5tt.toWalletId = c5tw.id ∧
     c5ft.status =
       (if (fun (_ : String) (_ _ : WalletType) => false) "wallet" WalletType.FIAT
           WalletType.SPOT then "PENDING" else "COMPLETED") ∧
     c5tt.status = c5ft.status) ∧
    (c5idbAfter.transfers = c5idb.transfers ++ [c5ires.outgoingTransfer, c5ires.incomingTransfer] ∧
     c5ires.outgoingTransfer.type = "OUTGOING_TRANSFER" ∧
     c5ires.outgoingTransfer.amount = some 10 ∧
     c5ires.outgoingTransfer.fee = fdivC (fmul (some 10) (some 0)) 100 ∧
     c5ires.incomingTransfer.type = "INCOMING_TRANSFER" ∧
     c5ires.incomingTransfer.amount = fsub (some 10) (fdivC (fmul (some 10) (some 0)) 100) ∧
     c5ires.incomingTransfer.fee = some 0 ∧
     c5ires.outgoingTransfer.fromWalletId = c5ires.incomingTransfer.fromWalletId ∧
     c5ires.outgoingTransfer.toWalletId = c5ires.incomingTransfer.toWalletId ∧
     c5ires.outgoingTransfer.status = "COMPLETED" ∧
     c5ires.incomingTransfer.status = "COMPLETED") :=
  ⟨spec_c5_two_transfer_records.1 "wallet" c5fw c5tw (some 100) "USD" "USD" 1 none
     WalletType.FIAT WalletType.SPOT 2 1 (fun _ _ _ => false) c5db c5dbAfter c5ft c5tt
     c5perfEval,
   spec_c5_two_transfer_records.2 1 2 "USDT" "ETH" (some 10) 0 (fun _ _ => some 8)
     c5idb c5idbAfter c5ires c5internalEval⟩

theorem find_map_replace (l : List Wallet) (w : Wallet) (i : Nat) (h : i ≠ w.id) :
    (l.map (fun x => if x.id = w.id then w else x)).find? (fun x => decide (x.id = i)) =
      l.find? (fun x => decide (x.id = i)) := by
  induction l with
  | nil => rfl
  | cons x xs ih =>
    by_cases hx : x.id = w.id
    · have h1 : ¬ (w.id = i) := fun hc => h (hc ▸ rfl)
      have h2 : ¬ (x.id = i) := fun hc => h1 (hx ▸ hc)
      simp [List.find?_cons, hx, h1, h2, ih]
    · simp only [List.map_cons, List.find?_cons, if_neg hx]
      by_cases h2 : x.id = i
      · simp [h2]
      · simp [h2, ih]

theorem find_map_replace_same (l : List Wallet) (w : Wallet) (old : Wallet)
    (h : l.find? (fun x => decide (x.id = w.id)) = some old) :
    (l.map (fun x => if x.id = w.id then w else x)).find?
      (fun x => decide (x.id = w.id)) = some w := by
  induction l with
  | nil => simp at h
  | cons x xs ih =>
    by_cases hx : x.id = w.id
    · simp [List.find?_cons, hx]
    · simp [List.find?_cons, hx] at h
      rw [List.map_cons, if_neg hx, List.find?_cons_of_neg _ (by simp [hx])]
      exact ih h

theorem findWalletById_saveWallet_other {db : DB} {w : Wallet} {i : Nat}
    (h : i ≠ w.id) :
    findWalletById (saveWallet db w) i = findWalletById db i :=
  find_map_replace db.wallets w i h

theorem findWalletById_saveWallet_same {db : DB} {w old : Wallet}
    (h : findWalletById db w.id = some old) :
    findWalletById (saveWallet db w) w.id = some w :=
  find_map_replace_same db.wallets w old h

theorem findWalletById_wallets_eq {db1 db2 : DB} (h : db1.wallets = db2.wallets)
    (i : Nat) : findWalletById db1 i = findWalletById db2 i := by
  unfold findWalletById
  rw [h]

/-- Claim C6: when the resolved status is PENDING (the private-ledger
settlement policy applies), only the source wallet's aggregate balance is
decremented by the transfer — the destination wallet row is left untouched —
and both legs carry status PENDING. -/
theorem spec_c6_pending_only_debits_source
    (transferType : String) (fromWallet toWallet : Wallet) (parsedAmount : JNum)
    (fromCurrency toCurrency : String) (userId : Nat) (clientId : Option Nat)
    (fromType toType : WalletType) (precision : Nat) (feePct : ℚ)
    (policy : String → WalletType → WalletType → Bool) (db db' : DB)
    (ft tt : TransferRecord)
    (hpol : policy transferType fromType toType = true)
    (hneq : toWallet.id ≠ fromWallet.id)
    (hfrom : findWalletById db fromWallet.id = some fromWallet)
    (hok : performTransaction transferType fromWallet toWallet parsedAmount
      fromCurrency toCurrency userId clientId fromType toType precision feePct
      policy db = Except.ok (db', ft, tt)) :
    findWalletById db' toWallet.id = findWalletById db toWallet.id ∧
    findWalletById db' fromWallet.id =
      some { fromWallet with
             balance := calculateNewBalance fromWallet.balance (fneg parsedAmount)
               precision } ∧
    ft.status = "PENDING" ∧ tt.status = "PENDING" := by
  simp only [performTransaction, hpol, Bool.not_true, Bool.false_eq_true, if_false,
    if_true, handlePendingTransfer, String.reduceEq, reduceIte] at hok
  split at hok
  · simp at hok
  · injection hok with h2
    have hdb : db' = _ := congrArg (fun x => x.1) h2.symm
    have hft : ft = _ := congrArg (fun x => x.2.1) h2.symm
    have htt : tt = _ := congrArg (fun x => x.2.2) h2.symm
    have hw : db'.wallets =
        (saveWallet db
          { fromWallet with
            balance := calculateNewBalance fromWallet.balance (fneg parsedAmount)
              precision }).wallets := by
      rw [hdb]
      cases fgt (calculateTransferFee parsedAmount feePct) (some 0) <;> rfl
    refine ⟨?_, ?_, ?_, ?_⟩
    · exact (findWalletById_wallets_eq hw toWallet.id).trans
        (findWalletById_saveWallet_other hneq)
    · exact (findWalletById_wallets_eq hw fromWallet.id).trans
        (findWalletById_saveWallet_same hfrom)
    · rw [hft]
      cases fgt (calculateTransferFee parsedAmount feePct) (some 0) <;> rfl
    · rw [htt]
      cases fgt (calculateTransferFee parsedAmount feePct) (some 0) <;> rfl

def c6fw : Wallet :=
  { id := 1, userId := 1, currency := "USD", type := WalletType.FIAT,
    balance := some 100, address := [], status := true }

def c6tw : Wallet :=
  { id := 2, userId := 1, currency := "USD", type := WalletType.ECO,
    balance := some 7, address := [], status := true }

def c6db : DB :=
  { users := [1], wallets := [c6fw, c6tw], ledger := [], transfers := [],
    profits := [], nextWalletId := 3, nextTxId := 30 }

def c6ft : TransferRecord :=
  { id := 30, userId := 1, walletId := 1, type := "OUTGOING_TRANSFER",
    amount := some 10, fee := some 0, fromCurrency := "USD", toCurrency := "USD",
    fromWalletId := 1, toWalletId := 2, description := "Transfer to ECO wallet",
    status := "PENDING" }

def c6tt : TransferRecord :=
  { id := 31, userId := 1, walletId := 2, type := "INCOMING_TRANSFER",
    amount := some 10, fee := some 0, fromCurrency := "USD", toCurrency := "USD",
    fromWalletId := 1, toWalletId := 2, description := "Transfer from FIAT wallet",
    status := "PENDING" }

def c6dbAfter : DB :=
  { users := [1], wallets := [{ c6fw with balance := some 90 }, c6tw], ledger := [],
    transfers := [c6ft, c6tt], profits := [], nextWalletId := 3, nextTxId := 32 }

/-- A concrete PENDING transfer evaluated: only the source balance moves. -/
theorem c6perfEval :
    performTransaction "wallet" c6fw c6tw (some 10) "USD" "USD" 1 none
      WalletType.FIAT WalletType.ECO 2 0 (fun _ _ _ => true) c6db =
      Except.ok (c6dbAfter, c6ft, c6tt) := by
  norm_num +decide [performTransaction, handlePendingTransfer, calculateNewBalance,
    updateWalletBalances, saveWallet, createTransferTransaction, recordAdminProfit,
    calculateTransferFee, c6fw, c6tw, c6db, c6dbAfter, c6ft, c6tt, flt, fgt, fsub,
    fadd, fmul, fneg, fdivC, froundTo, qroundTo, round_eq, wtypeStr]

theorem spec_c6_witness :
    findWalletById c6dbAfter 2 = findWalletById c6db 2 ∧
    findWalletById c6dbAfter 1 =
      some { c6fw with
             balance := calculateNewBalance c6fw.balance (fneg (some 10)) 2 } ∧
    c6ft.status = "PENDING" ∧ c6tt.status = "PENDING" := by
  have h := spec_c6_pending_only_debits_source "wallet" c6fw c6tw (some 10) "USD"
    "USD" 1 none WalletType.FIAT WalletType.ECO 2 0 (fun _ _ _ => true) c6db
    c6dbAfter c6ft c6tt rfl (by decide) rfl c6perfEval
  exact h

/-- Claim C7: an admin profit row is created exactly when the computed fee is
strictly positive; when created there is exactly one per transfer, recording
the paying user, the fee, the currency and wallet types, and linked to the id
of the OUTGOING_TRANSFER row; with a zero fee the transfer still succeeds and
no profit row is appended — for `performTransaction` and
`processInternalTransfer` alike. -/
theorem spec_c7_profit_iff_fee_positive :
    (∀ (transferType : String) (fromWallet toWallet : Wallet) (parsedAmount : JNum)
       (fromCurrency toCurrency : String) (userId : Nat) (clientId : Option Nat)
       (fromType toType : WalletType) (precision : Nat) (feePct : ℚ)
       (policy : String → WalletType → WalletType → Bool) (db db' : DB)
       (ft tt : TransferRecord),
       performTransaction transferType fromWallet toWallet parsedAmount fromCurrency
         toCurrency userId clientId fromType toType precision feePct policy db =
         Except.ok (db', ft, tt) →
       db'.profits = db.profits ++
         (if fgt (calculateTransferFee parsedAmount feePct) (some 0) then
           [{ userId := userId,
              transferFeeAmount := calculateTransferFee parsedAmount feePct,
              fromCurrency := fromCurrency, fromType := fromType, toType := toType,
              transactionId := ft.id }]
          else [])) ∧
    (∀ (fromUserId toUserId : Nat) (currency chain : String) (amount : JNum)
       (feePct : ℚ) (gp : WalletType → String → Option Nat) (db db' : DB)
       (r : InternalResult),
       processInternalTransfer fromUserId toUserId currency chain amount feePct gp db =
         (db', Except.ok r) →
       db'.profits = db.profits ++
         (if fgt (fdivC (fmul amount (some feePct)) 100) (some 0) then
           [{ userId := fromUserId,
              transferFeeAmount := fdivC (fmul amount (some feePct)) 100,
              fromCurrency := currency, fromType := WalletType.ECO,
              toType := WalletType.ECO,
              transactionId := r.outgoingTransfer.id }]
          else [])) := by
  constructor
  · intro transferType fromWallet toWallet parsedAmount fromCurrency toCurrency userId
      clientId fromType toType precision feePct policy db db' ft tt h
    simp only [performTransaction] at h
    split at h
    · simp at h
    · split at h
      · simp at h
      · rename_i fw1 tw1 db1 heq
        injection h with h2
        rw [show db' = _ from congrArg (fun x => x.1) h2.symm,
            show ft = _ from congrArg (fun x => x.2.1) h2.symm]
        have hframe := transferBranch_frame heq
        cases hfee : fgt (calculateTransferFee parsedAmount feePct) (some 0) <;>
          simp [createTransferTransaction, recordAdminProfit, hfee, hframe.2]
  · intro fromUserId toUserId currency chain amount feePct gp db db' r h
    simp only [processInternalTransfer] at h
    split at h
    · simp at h
    · rename_i fromWallet heqf
      split at h
      · simp at h
      · split at h
        · simp at h
        · rename_i db2 o i heqb
          rw [Prod.mk.injEq, Except.ok.injEq] at h
          obtain ⟨hdb, hr⟩ := h
          obtain ⟨a1, a2, a3, a4, a5, a6, a7, a8, a9, a10, a11, a12⟩ :=
            internalAtomic_ok heqb
          have hd1 : (match findWallet db toUserId currency WalletType.ECO with
              | some w => (w, db)
              | none => createWallet db toUserId currency WalletType.ECO).2.profits =
              db.profits := by
            cases findWallet db toUserId currency WalletType.ECO <;> rfl
          rw [hd1] at a2
          rw [← hdb, ← hr]
          exact a2

theorem spec_c7_witness :
    c5dbAfter.profits = c5db.profits ++
      (if fgt (calculateTransferFee (some 100) 1) (some 0) then
        [{ userId := 1, transferFeeAmount := calculateTransferFee (some 100) 1,
           fromCurrency := "USD", fromType := WalletType.FIAT,
           toType := WalletType.SPOT, transactionId := c5ft.id }]
       else []) ∧
    c5idbAfter.profits = c5idb.profits ++
      (if fgt (fdivC (fmul (some 10) (some 0)) 100) (some 0) then
        [{ userId := 1, transferFeeAmount := fdivC (fmul (some 10) (some 0)) 100,
           fromCurrency := "USDT", fromType := WalletType.ECO,
           toType := WalletType.ECO,
           transactionId := c5ires.outgoingTransfer.id }]
       else []) :=
  ⟨spec_c7_profit_iff_fee_positive.1 "wallet" c5fw c5tw (some 100) "USD" "USD" 1 none
     WalletType.FIAT WalletType.SPOT 2 1 (fun _ _ _ => false) c5db c5dbAfter c5ft c5tt
     c5perfEval,
   spec_c7_profit_iff_fee_positive.2 1 2 "USDT" "ETH" (some 10) 0 (fun _ _ => some 8)
     c5idb c5idbAfter c5ires c5internalEval⟩

def c1fw : Wallet :=
  { id := 1, userId := 1, currency := "USDT", type := WalletType.ECO,
    balance := some 100,
    address := [("ETH", { address := none, network := none, balance := some 100 })],
    status := true }

def c1tw : Wallet :=
  { id := 2, userId := 2, currency := "USDT", type := WalletType.ECO,
    balance := some 0, address := [], status := true }

def c1db : DB :=
  { users := [1, 2], wallets := [c1fw, c1tw], ledger := [], transfers := [],
    profits := [], nextWalletId := 3, nextTxId := 40 }

def c1o : TransferRecord :=
  { id := 40, userId := 1, walletId := 1, type := "OUTGOING_TRANSFER",
    amount := some 100, fee := some 1, fromCurrency := "USDT", toCurrency := "USDT",
    fromWalletId := 1, toWalletId := 2, description := "Transfer to ECO wallet",
    status := "COMPLETED" }

def c1i : TransferRecord :=
  { id := 41, userId := 2, walletId := 2, type := "INCOMING_TRANSFER",
    amount := some 99, fee := some 0, fromCurrency := "USDT", toCurrency := "USDT",
    fromWalletId := 1, toWalletId := 2, description := "Transfer from ECO wallet",
    status := "COMPLETED" }

def c1dbAfter : DB :=
  { users := [1, 2],
    wallets := [{ c1fw with balance := some 0 }, { c1tw with balance := some 100 }],
    ledger :=
      [{ walletId := 1, index := 0, currency := "USDT", chain := "ETH", delta := some (-100) },
       { walletId := 2, index := 0, currency := "USDT", chain := "ETH", delta := some 100 }],
    transfers := [c1o, c1i],
    profits := [{ userId := 1, transferFeeAmount := some 1, fromCurrency := "USDT",
                  fromType := WalletType.ECO, toType := WalletType.ECO,
                  transactionId := 40 }],
    nextWalletId := 3, nextTxId := 42 }

/-- Claim C1 (code bug): a client ECO transfer of 100 with a 1% fee credits
the destination's aggregate balance with the full gross 100 — the call site
passes `parsedAmount` as both the debit and the credit — while the fee of 1
is still charged (outgoing fee and admin profit) and the INCOMING record says
the recipient received only 99. The destination thus does not increase by
`amount − fee` as the specification requires. -/
theorem spec_c1_client_eco_credits_gross :
    performTransaction "client" c1fw c1tw (some 100) "USDT" "USDT" 1 (some 2)
      WalletType.ECO WalletType.ECO 8 1 (fun _ _ _ => false) c1db =
      Except.ok (c1dbAfter, c1o, c1i) ∧
    (findWalletById c1dbAfter 2).map Wallet.balance = some (some 100) ∧
    c1o.fee = some 1 ∧
    c1i.amount = some 99 ∧
    (findWalletById c1dbAfter 2).map Wallet.balance ≠
      some (fsub (some 100) c1o.fee) := by
  refine ⟨?_, rfl, rfl, rfl, ?_⟩
  · norm_num +decide [performTransaction, handleCompleteTransfer,
      handleEcoClientBalanceTransfer, ecoClientLoop, getSortedChainBalances,
      insertByBalance, setChainBalance, addChainBalance, updatePrivateLedger,
      updateWalletBalances, saveWallet, createTransferTransaction, recordAdminProfit,
      calculateTransferFee, c1fw, c1tw, c1db, c1dbAfter, c1o, c1i, flt, fgt, fle,
      fmin, fsub, fadd, fmul, fneg, fdivC, froundTo, qroundTo, round_eq, wtypeStr]
  · norm_num [findWalletById, c1dbAfter, c1fw, c1tw, c1o, fsub]

def c8fw : Wallet :=
  { id := 1, userId := 1, currency := "USD", type := WalletType.FIAT,
    balance := some 100, address := [], status := true }

def c8tw : Wallet :=
  { id := 2, userId := 1, currency := "EUR", type := WalletType.SPOT,
    balance := some 5, address := [], status := true }

def c8db : DB :=
  { users := [1], wallets := [c8fw, c8tw], ledger := [], transfers := [],
    profits := [], nextWalletId := 3, nextTxId := 50 }

/-- A request whose amount is not a valid number: `parseFloat` yields `NaN`. -/
def c8req : TransferRequest :=
  { fromType := WalletType.FIAT, toType := WalletType.SPOT, amount := none,
    transferType := "wallet", clientId := none, fromCurrency := "USD",
    toCurrency := "EUR" }

def c8ft : TransferRecord :=
  { id := 50, userId := 1, walletId := 1, type := "OUTGOING_TRANSFER",
    amount := none, fee := none, fromCurrency := "USD", toCurrency := "EUR",
    fromWalletId := 1, toWalletId := 2, description := "Transfer to SPOT wallet",
    status := "COMPLETED" }

def c8tt : TransferRecord :=
  { id := 51, userId := 1, walletId := 2, type := "INCOMING_TRANSFER",
    amount := none, fee := some 0, fromCurrency := "USD", toCurrency := "EUR",
    fromWalletId := 1, toWalletId := 2, description := "Transfer from FIAT wallet",
    status := "COMPLETED" }

def c8dbAfter : DB :=
  { users := [1],
    wallets := [{ c8fw with balance := none }, { c8tw with balance := none }],
    ledger := [], transfers := [c8ft, c8tt], profits := [],
    nextWalletId := 3, nextTxId := 52 }

/-- Claim C8 (code bug): a non-numeric amount (`NaN`) is not rejected.
Both insufficient-balance guards compare `balance < NaN`, which is false, so
the handler proceeds: the transfer "succeeds", both wallet balances are
overwritten with `NaN`, and two transaction rows with `NaN` amounts are
persisted — no Validation error is raised before mutation. -/
theorem spec_c8_nan_amount_mutates :
    createTransfer (some 1) c8req 1 (fun _ _ => some 2) (fun _ _ _ => false) c8db =
      (c8dbAfter, Except.ok
        { message := "Transfer initiated successfully", fromTransfer := c8ft,
          toTransfer := c8tt, fromType := WalletType.FIAT,
          toType := WalletType.SPOT, fromCurrency := "USD", toCurrency := "EUR" }) ∧
    (findWalletById c8dbAfter 1).map Wallet.balance = some none ∧
    (findWalletById c8dbAfter 2).map Wallet.balance = some none ∧
    c8dbAfter.transfers = [c8ft, c8tt] := by
  refine ⟨?_, rfl, rfl, rfl⟩
  norm_num +decide [createTransfer, resolveToWallet, handleWalletTransfer,
    validTransfers, findWallet, performTransaction, handleCompleteTransfer,
    handleNonClientTransfer, updateWalletBalances, saveWallet,
    createTransferTransaction, recordAdminProfit, calculateTransferFee, c8fw, c8tw,
    c8db, c8dbAfter, c8req, c8ft, c8tt, flt, fgt, fsub, fadd, fmul, fdivC, froundTo,
    wtypeStr]

/-- Claim C9: for client transfers the resolved destination wallet always has
the same currency and the same wallet type as the source (created with that
type on demand when missing) and belongs to the target client; and the
handler's destination resolution for client transfers is independent of the
request's `toType` — the §4.2 route table is never consulted. -/
theorem spec_c9_client_wallet_resolution :
    (∀ (cid : Nat) (currency : String) (fromType : WalletType) (db : DB)
       (w : Wallet) (uid : Nat) (db' : DB),
       handleClientTransfer (some cid) currency fromType db =
         Except.ok ((w, uid), db') →
       w.currency = currency ∧ w.type = fromType ∧ w.userId = cid) ∧
    (∀ (userId : Nat) (clientId : Option Nat) (fromType tt tt' : WalletType)
       (fromCurrency toCurrency : String) (db : DB),
       resolveToWallet "client" userId clientId fromType tt fromCurrency toCurrency
         db =
       resolveToWallet "client" userId clientId fromType tt' fromCurrency toCurrency
         db) := by
  constructor
  · intro cid currency fromType db w uid db' h
    simp only [handleClientTransfer] at h
    split at h
    · split at h
      · rename_i hft
        simp only [getWalletByUserIdAndCurrency] at h
        split at h
        · rename_i w0 heqw
          obtain ⟨⟨hw, -⟩, -⟩ : (w0 = w ∧ cid = uid) ∧ db = db' := by simpa using h
          obtain ⟨p1, p2, p3⟩ := findWallet_props heqw
          exact ⟨hw ▸ p2, hw ▸ (p3.trans hft.symm), hw ▸ p1⟩
        · obtain ⟨⟨hw, -⟩, -⟩ : (_ = w ∧ cid = uid) ∧ _ = db' := by simpa using h
          exact ⟨hw ▸ rfl, hw ▸ hft.symm, hw ▸ rfl⟩
      · split at h
        · rename_i w0 heqw
          obtain ⟨⟨hw, -⟩, -⟩ : (w0 = w ∧ cid = uid) ∧ db = db' := by simpa using h
          obtain ⟨p1, p2, p3⟩ := findWallet_props heqw
          exact ⟨hw ▸ p2, hw ▸ p3, hw ▸ p1⟩
        · obtain ⟨⟨hw, -⟩, -⟩ : (_ = w ∧ cid = uid) ∧ _ = db' := by simpa using h
          exact ⟨hw ▸ rfl, hw ▸ rfl, hw ▸ rfl⟩
    · simp at h
  · intro userId clientId fromType tt tt' fromCurrency toCurrency db
    rfl

def c9db : DB :=
  { users := [1, 2], wallets := [], ledger := [], transfers := [], profits := [],
    nextWalletId := 7, nextTxId := 1 }

/-- The ECO wallet created on demand for client 2 by the resolution. -/
def c9created : Wallet :=
  { id := 7, userId := 2, currency := "USDT", type := WalletType.ECO,
    balance := some 0, address := [], status := true }

theorem c9resEval :
    handleClientTransfer (some 2) "USDT" WalletType.ECO c9db =
      Except.ok ((c9created, 2),
        { c9db with wallets := [c9created], nextWalletId := 8 }) := by
  simp +decide [handleClientTransfer, getWalletByUserIdAndCurrency, findWallet,
    createWallet, c9db, c9created]

theorem spec_c9_witness :
    (c9created.currency = "USDT" ∧ c9created.type = WalletType.ECO ∧
     c9created.userId = 2) ∧
    resolveToWallet "client" 1 (some 2) WalletType.ECO WalletType.FIAT "USDT" "USDT"
      c9db =
    resolveToWallet "client" 1 (some 2) WalletType.ECO WalletType.ECO "USDT" "USDT"
      c9db :=
  ⟨spec_c9_client_wallet_resolution.1 2 "USDT" WalletType.ECO c9db c9created 2
     { c9db with wallets := [c9created], nextWalletId := 8 } c9resEval,
   spec_c9_client_wallet_resolution.2 1 (some 2) WalletType.ECO WalletType.FIAT
     WalletType.ECO "USDT" "USDT" c9db⟩

/-- Claim C10: `parseAddresses` is total — it returns a chain map for every
input without throwing: null/undefined (and the other falsy primitives) and
any truthy non-string non-object yield the empty map, a malformed JSON string
(one the parser rejects, including the empty string) yields the empty map, a
well-formed JSON string yields its parsed map, and an object is returned as
is. -/
theorem spec_c10_parse_addresses_total
    (jsonParse : String → Option AddrMap) (hempty : jsonParse "" = none) :
    parseAddresses jsonParse AddrInput.nullv = [] ∧
    parseAddresses jsonParse AddrInput.otherv = [] ∧
    (∀ (s : String), jsonParse s = none → parseAddresses jsonParse (AddrInput.strv s) = []) ∧
    (∀ (s : String) (m : AddrMap), jsonParse s = some m →
       parseAddresses jsonParse (AddrInput.strv s) = m) ∧
    (∀ (m : AddrMap), parseAddresses jsonParse (AddrInput.objv m) = m) := by
  refine ⟨rfl, rfl, ?_, ?_, fun m => rfl⟩
  · intro s hs
    simp [parseAddresses, hs]
  · intro s m hs
    have hne : s ≠ "" := by
      intro hc
      rw [hc, hempty] at hs
      cases hs
    simp [parseAddresses, hs, hne]

/-- A concrete JSON parser oracle for the witness: accepts exactly the
string "good". -/
def c10parse : String → Option AddrMap :=
  fun s =>
    if s = "good" then
      some [("ETH", { address := none, network := none, balance := some 3 })]
    else none

theorem spec_c10_witness :
    parseAddresses c10parse AddrInput.nullv = [] ∧
    parseAddresses c10parse AddrInput.otherv = [] ∧
    parseAddresses c10parse (AddrInput.strv "bad json") = [] ∧
    parseAddresses c10parse (AddrInput.strv "good") =
      [("ETH", { address := none, network := none, balance := some 3 })] ∧
    parseAddresses c10parse
      (AddrInput.objv [("BSC", { address := none, network := none, balance := some 1 })]) =
      [("BSC", { address := none, network := none, balance := some 1 })] := by
  have h := spec_c10_parse_addresses_total c10parse rfl
  exact ⟨h.1, h.2.1, h.2.2.1 "bad json" rfl,
    h.2.2.2.1 "good" [("ETH", { address := none, network := none, balance := some 3 })] rfl,
    h.2.2.2.2 [("BSC", { address := none, network := none, balance := some 1 })]⟩
